import Mathlib

/-!
# Object tracker: size filter and track filter

A shallow embedding of `object_tracker/src/filter.cpp` (namespace `TeamKR`,
class `Filter`) and the properties proved about it.

Conventions of the embedding.

* `value_type` and `double` quantities are rationals: the comparisons and the
  additions, subtractions, products and quotients of the source are read as
  exact arithmetic, without rounding, with one exception: `toTime`, which
  turns the two integers of a timestamp into the `double` the code works with,
  rounds as the code does, so that two timestamps the code cannot tell apart
  are one time here too. The one quotient of the source whose divisor can be
  zero is the one of `velocity`; the test that consumes it is `gate`, which
  says what happens then.
* `std::vector<T>` is `List T`; `push_back` appends at the end.
* A member function takes the object as `self` and, when it mutates members,
  returns the new object next to its output parameter.
* A function whose result the source does not determine takes the value its
  caller receives as a parameter: `toBox` has no `return` statement, and
  `selectCluster` returns a reference to a local that is destroyed on return.
* The header `object_tracker/filter.h` fixes the threshold macros
  (`CAR_MAX_WIDTH`, ...). Their values are not part of `filter.cpp`; they
  are the fields of `Constants`, and every definition takes them as `K`.
-/

namespace TeamKR

/-! ## Data model -/

/-- Two-dimensional vector (`Vector2`). -/
structure Vector2 where
  x : ℚ
  y : ℚ
deriving DecidableEq

/-- Three-dimensional vector (`Vector3`); component `(0)`, `(1)`, `(2)` are
`x`, `y`, `z`. -/
structure Vector3 where
  x : ℚ
  y : ℚ
  z : ℚ
deriving DecidableEq

/-- A summarised point-cloud segment, as read through the accessors
`min()`, `max()`, `center()`, `pointCount()` and `area()`. -/
structure Cluster where
  min : Vector3
  max : Vector3
  center : Vector3
  pointCount : Int
  area : ℚ
deriving DecidableEq

/-- The output box: position and extents. -/
structure Box where
  px : ℚ
  py : ℚ
  pz : ℚ
  width : ℚ
  height : ℚ
  depth : ℚ
deriving DecidableEq

/-- The threshold macros of `object_tracker/filter.h` used by `filter.cpp`. -/
structure Constants where
  CAR_SPEED_LIMIT : ℚ
  CAR_FILTER_INIT_TIME : ℚ
  CAR_FILTER_RESET_TIME : ℚ
  PEDESTRIAN_SPEED_LIMIT : ℚ
  PEDESTRIAN_FILTER_INIT_TIME : ℚ
  PEDESTRIAN_FILTER_RESET_TIME : ℚ
  GROUND_Z : ℚ
  CAR_MAX_WIDTH : ℚ
  CAR_MIN_DEPTH : ℚ
  CAR_MAX_DEPTH : ℚ
  CAR_MIN_POINT_COUNT : Int
  CAR_MAX_AREA : ℚ
  PEDESTRIAN_MAX_WIDTH : ℚ
  PEDESTRIAN_MIN_DEPTH : ℚ
  PEDESTRIAN_MAX_DEPTH : ℚ
  PEDESTRIAN_MAX_BASE : ℚ
  PEDESTRIAN_MIN_POINT_COUNT : Int
  PEDESTRIAN_MAX_AREA : ℚ

/-- The data members of `Filter`. -/
structure Filter where
  mode_ : String
  speedLimit_ : ℚ
  initTime_ : ℚ
  resetTime_ : ℚ
  initStartTime_ : ℚ
  resetStartTime_ : ℚ
  initialized_ : Bool
  valid_ : Bool
  prevTime_ : ℚ
  prevVel_ : Vector2
  prevBox_ : Box
  prevCluster_ : Cluster
deriving DecidableEq

/-! ## Size filter -/

/-- The quantity `maxWidth` of `filterBySize` (line 44): the larger of the
two horizontal extents. -/
def maxWidth (cit : Cluster) : ℚ :=
  Max.max (cit.max.x - cit.min.x) (cit.max.y - cit.min.y)

/-- One iteration of the loop of `Filter::filterBySize` (lines 41-80):
`false` when the iteration leaves through one of the `continue` statements,
`true` when it reaches `output.push_back(*cit)` on line 82. -/
def passesSize (K : Constants) (self : Filter) (cit : Cluster) : Bool :=
  let top := cit.max.z
  let base := cit.min.z
  let maxWidth := maxWidth cit
  if self.mode_ = "car" then
    if maxWidth < K.PEDESTRIAN_MAX_WIDTH ∨ maxWidth > K.CAR_MAX_WIDTH
        ∨ top < K.GROUND_Z + K.CAR_MIN_DEPTH ∨ top > K.GROUND_Z + K.CAR_MAX_DEPTH then
      false
    else if cit.pointCount < K.CAR_MIN_POINT_COUNT then
      false
    else if cit.area > K.CAR_MAX_AREA then
      false
    else
      true
  else if self.mode_ = "ped" then
    if maxWidth > K.PEDESTRIAN_MAX_WIDTH
        ∨ top < K.GROUND_Z + K.PEDESTRIAN_MIN_DEPTH
        ∨ top > K.GROUND_Z + K.PEDESTRIAN_MAX_DEPTH then
      false
    else if base > K.PEDESTRIAN_MAX_BASE then
      false
    else if cit.pointCount < K.PEDESTRIAN_MIN_POINT_COUNT then
      false
    else if cit.area > K.PEDESTRIAN_MAX_AREA then
      false
    else
      true
  else
    true

/-- `Filter::filterBySize` (lines 36-84): the loop over `input`, appending to
`output` every cluster whose iteration reaches the `push_back`. -/
def filterBySize (K : Constants) (self : Filter) :
    List Cluster → List Cluster → List Cluster
  | [], output => output
  | cit :: rest, output =>
    if passesSize K self cit then
      filterBySize K self rest (output ++ [cit])
    else
      filterBySize K self rest output

/-! ## Track filter -/

/-- `Filter::Filter` (lines 6-29). `raw` is the object before the body of the
constructor runs: the body assigns `mode_`, the three limits when the mode is
`"car"` or `"ped"`, the two timers, the two flags, `prevTime_` and `prevVel_`;
every other member (`prevBox_`, `prevCluster_`, and the limits for any other
mode) keeps what it holds in `raw`. -/
def Filter.construct (K : Constants) (mode : String) (raw : Filter) : Filter :=
  let self := { raw with mode_ := mode }
  let self :=
    if mode = "car" then
      { self with speedLimit_ := K.CAR_SPEED_LIMIT, initTime_ := K.CAR_FILTER_INIT_TIME,
                  resetTime_ := K.CAR_FILTER_RESET_TIME }
    else if mode = "ped" then
      { self with speedLimit_ := K.PEDESTRIAN_SPEED_LIMIT,
                  initTime_ := K.PEDESTRIAN_FILTER_INIT_TIME,
                  resetTime_ := K.PEDESTRIAN_FILTER_RESET_TIME }
    else
      self
  { self with initStartTime_ := -1, resetStartTime_ := -1, initialized_ := false,
              valid_ := false, prevTime_ := 0, prevVel_ := ⟨0, 0⟩ }

/-- The integer nearest to `x`, the even one when `x` lies halfway between two
integers. -/
def roundHalfEven (x : ℚ) : ℤ :=
  let f := ⌊x⌋
  if x - f < 1 / 2 then f
  else if x - f > 1 / 2 then f + 1
  else if f % 2 = 0 then f
  else f + 1

/-- The `double` nearest to the rational `q` (round to nearest, ties to even):
a significand of 53 bits scaled by a power of two. The exponent range of the
format is not modelled; the values rounded here are times in seconds built from
two `int`s, far inside the range. -/
def roundDouble (q : ℚ) : ℚ :=
  if q = 0 then 0
  else
    let e : ℤ := Int.log 2 |q| - 52
    (roundHalfEven (q / 2 ^ e) : ℚ) * 2 ^ e

/-- The `double` of the literal `1E-9`: the `double` nearest to `1/10^9`
(`nano_eq_roundDouble`). -/
def nano : ℚ := 4835703278458517 / 2 ^ 82

/-- `Filter::toTime` (lines 262-265): `1E-9 * (double)tsNsec + (double)tsSec`.
The product is rounded to a `double`, and so is the sum; the conversions of the
two `int`s are exact. Timestamps that differ by less than half the spacing of
the `double`s around them give the same time. -/
def toTime (tsSec tsNsec : Int) : ℚ :=
  roundDouble (roundDouble (nano * (tsNsec : ℚ)) + (tsSec : ℚ))

/-- `Filter::velocity` (lines 267-271): the displacement from the centre of the
member `prevCluster_` to `pos`, divided by the time elapsed since `prevTime_`. -/
def velocity (self : Filter) (pos : Vector2) (time : ℚ) : Vector2 :=
  let prevPos : Vector2 := ⟨self.prevCluster_.center.x, self.prevCluster_.center.y⟩
  ⟨(pos.x - prevPos.x) / (time - self.prevTime_), (pos.y - prevPos.y) / (time - self.prevTime_)⟩

/-- The comparison `v.norm() < limit`, with `norm` the Euclidean length: the
square root of a sum of squares is below `limit` exactly when `limit` is
positive and the sum of squares is below its square (`normLt_iff_sqrt`). -/
def normLt (v : Vector2) (limit : ℚ) : Bool :=
  decide (0 < limit ∧ v.x * v.x + v.y * v.y < limit * limit)

/-- The body of the gating loops (lines 139-141 and 203-205): `true` when the
candidate `it` is pushed on `found`. With no time elapsed since `prevTime_` the
quotient of line 270 is a division by zero, whose floating-point result has
infinite or NaN components; its norm is below no limit, so the candidate is not
pushed. -/
def gate (self : Filter) (time : ℚ) (it : Cluster) : Bool :=
  let point : Vector2 := ⟨it.center.x, it.center.y⟩
  let vel := velocity self point time
  decide (time - self.prevTime_ ≠ 0) && normLt vel self.speedLimit_

/-- The gating loops of `filterByVelocity` (lines 137-145 and 201-209), appending
to `found` the candidates that pass. -/
def gateLoop (self : Filter) (time : ℚ) : List Cluster → List Cluster → List Cluster
  | [], found => found
  | it :: rest, found =>
    if gate self time it then
      gateLoop self time rest (found ++ [it])
    else
      gateLoop self time rest found

/-- `Filter::toBox` (lines 273-286). The body fills the local `box` from the
cluster and reaches the closing brace of the function: there is no `return`
statement, so the value the caller receives is not determined by the body.
`ret` stands for that value. -/
def toBox (ret : Box) (cluster : Cluster) : Box :=
  let center := cluster.center
  let min := cluster.min
  let max := cluster.max
  let _box : Box :=
    { px := center.x, py := center.y, pz := center.z,
      width := max.x - min.x, height := max.y - min.y, depth := max.z - min.z }
  ret

/-- The loop of `Filter::selectCluster` (lines 293-299): `cluster` is replaced
by the element under the iterator when that one has strictly more points. -/
def selectLoop : Cluster → List Cluster → Cluster
  | cluster, [] => cluster
  | cluster, it :: rest =>
    if it.pointCount > cluster.pointCount then
      selectLoop it rest
    else
      selectLoop cluster rest

/-- `Filter::selectCluster` (lines 288-302), for a non-empty `input` (the body
dereferences `input.begin()`): the local `cluster` starts as the first element
and the loop runs over the remaining ones. The function returns
`const Cluster&` bound to that local, whose lifetime ends when the function
returns; the caller's copy `current = selectCluster(...)` reads the destroyed
object, so the value it gets is not determined by the body. `ref` stands for
that value. -/
def selectCluster (ref : Cluster) : (input : List Cluster) → input ≠ [] → Cluster
  | it :: rest, _ =>
    let _cluster := selectLoop it rest
    ref

/-- The dead-reckoned box, written three times in `filterByVelocity`
(lines 99-102, 159-162, 214-217): a copy of `prevBox_` moved by
`prevVel_ * (time - prevTime_)` in `px` and `py`. -/
def predict (self : Filter) (time : ℚ) : Box :=
  let box := self.prevBox_
  let dp : Vector2 :=
    ⟨self.prevVel_.x * (time - self.prevTime_), self.prevVel_.y * (time - self.prevTime_)⟩
  { box with px := box.px + dp.x, py := box.py + dp.y }

/-- The block "save current info" up to the call of `toBox`
(lines 114-123, 169-178, 238-247): the only element of a one-element list,
otherwise the result of `selectCluster`. -/
def pickCurrent (sel : Cluster) (xs : List Cluster) (h : xs ≠ []) : Cluster :=
  if xs.length = 1 then xs.head h else selectCluster sel xs h

/-- `Filter::filterByVelocity` (lines 86-260). The result is the object after
the call and the contents of `output` after the call. `ret` is the value
received from the call of `toBox` and `sel` the value read through the
reference returned by `selectCluster` (at most one call of each is made, the
nested call included). The nested call on line 232 writes into the local
`dummy`, which is dropped when the call returns. -/
def filterByVelocity (ret : Box) (sel : Cluster) (self : Filter) (input : List Cluster)
    (tsSec tsNsec : Int) (output : List Box) : Filter × List Box :=
  let time := toTime tsSec tsNsec
  if hin : input = [] then
    -- predict
    if !self.initialized_ then
      (self, output)
    else
      (self, output ++ [predict self time])
  else if hv : (!self.initialized_ || !self.valid_) = true then
    if self.initStartTime_ < 0 then
      -- start init timer
      let current := pickCurrent sel input hin
      let box := toBox ret current
      ({ self with prevVel_ := ⟨0, 0⟩, prevTime_ := time, prevBox_ := box,
                   initStartTime_ := time },
        output ++ [box])
    else
      -- init timer running
      let found := gateLoop self time input []
      if hf : found = [] then
        let self1 := { self with initStartTime_ := -1 }
        if !self1.initialized_ then
          (self1, output)
        else
          (self1, output ++ [predict self1 time])
      else
        let current := pickCurrent sel found hf
        let box := toBox ret current
        let point : Vector2 := ⟨current.center.x, current.center.y⟩
        let vel := velocity self point time
        let self1 := { self with prevVel_ := vel, prevTime_ := time, prevBox_ := box }
        if time - self1.initStartTime_ > self1.initTime_ then
          ({ self1 with initialized_ := true, valid_ := true, initStartTime_ := -1 },
            output ++ [box])
        else
          (self1, output ++ [box])
  else
    -- initialized and valid
    let found := gateLoop self time input []
    if hf : found = [] then
      let output1 := output ++ [predict self time]
      if self.resetStartTime_ < 0 then
        ({ self with resetStartTime_ := time }, output1)
      else if time - self.resetStartTime_ > self.resetTime_ then
        let self1 := { self with valid_ := false, resetStartTime_ := -1 }
        let dummy : List Box := []
        let nested := filterByVelocity ret sel self1 input tsSec tsNsec dummy
        (nested.1, output1)
      else
        (self, output1)
    else
      let current := pickCurrent sel found hf
      let box := toBox ret current
      let point : Vector2 := ⟨current.center.x, current.center.y⟩
      let vel := velocity self point time
      ({ self with prevVel_ := vel, prevTime_ := time, prevBox_ := box,
                   initStartTime_ := -1, resetStartTime_ := -1 },
        output ++ [box])
termination_by (if self.valid_ = true then 1 else 0)
decreasing_by
  simp only [Bool.or_eq_true, Bool.not_eq_true', not_or, Bool.not_eq_false] at hv
  simp [hv.2]

/-- The box the cluster-to-box conversion is meant to deliver, as the spec
words it (`clusterToBox`): position from the centre, extents from `max - min`.
It is the local `box` that the body of `toBox` fills. -/
def clusterToBox (cluster : Cluster) : Box :=
  { px := cluster.center.x, py := cluster.center.y, pz := cluster.center.z,
    width := cluster.max.x - cluster.min.x, height := cluster.max.y - cluster.min.y,
    depth := cluster.max.z - cluster.min.z }

/-- The velocity gate as the spec words it: the displacement is taken from
the position `(px, py)` of `prevBox_`, the box of the last accepted sample, and
divided by the time elapsed since `prevTime_`; the candidate is retained when
the norm is strictly below `speedLimit_`. It differs from `gate` only in the
reference position. -/
def gateFromPrevBox (self : Filter) (time : ℚ) (it : Cluster) : Bool :=
  let vel : Vector2 :=
    ⟨(it.center.x - self.prevBox_.px) / (time - self.prevTime_),
     (it.center.y - self.prevBox_.py) / (time - self.prevTime_)⟩
  decide (time - self.prevTime_ ≠ 0) && normLt vel self.speedLimit_

/-! ## Frame sequences

The caller invokes `filterByVelocity` once per frame, each time on an empty
output vector. -/

/-- One frame handed to the track filter: the size-filtered candidates, the
two integers of the timestamp, the value the call of `toBox` hands back during
that frame, and the value read through the reference that `selectCluster`
returns during that frame. -/
structure Frame where
  input : List Cluster
  tsSec : Int
  tsNsec : Int
  ret : Box
  sel : Cluster

/-- The time of a frame, as `filterByVelocity` computes it on line 88. -/
def Frame.time (fr : Frame) : ℚ :=
  toTime fr.tsSec fr.tsNsec

/-- Timestamp order: `a` is stamped strictly before `b`, seconds compared
first and nanoseconds next. -/
def Frame.before (a b : Frame) : Bool :=
  decide (a.tsSec < b.tsSec ∨ (a.tsSec = b.tsSec ∧ a.tsNsec < b.tsNsec))

/-- The filter object after one frame. -/
def step (self : Filter) (fr : Frame) : Filter :=
  (filterByVelocity fr.ret fr.sel self fr.input fr.tsSec fr.tsNsec []).1

/-- The filter object after a sequence of frames, oldest first. -/
def run (self : Filter) : List Frame → Filter
  | [] => self
  | fr :: rest => run (step self fr) rest

/-- `Filter::velocity` (lines 267-271) together with the divisor
`time - prevTime_` of its quotient on line 270. -/
def velocityLogged (self : Filter) (pos : Vector2) (time : ℚ) : Vector2 × ℚ :=
  (velocity self pos time, time - self.prevTime_)

/-- The body of the gating loops (`gate`), with the divisor of its call of
`velocity`. -/
def gateLogged (self : Filter) (time : ℚ) (it : Cluster) : Bool × ℚ :=
  let point : Vector2 := ⟨it.center.x, it.center.y⟩
  let called := velocityLogged self point time
  (decide (time - self.prevTime_ ≠ 0) && normLt called.1 self.speedLimit_, called.2)

/-- The gating loops (`gateLoop`), appending to the log the divisor of the call
of `velocity` made for each candidate. -/
def gateLoopLogged (self : Filter) (time : ℚ) :
    List Cluster → List Cluster → List ℚ → List Cluster × List ℚ
  | [], found, log => (found, log)
  | it :: rest, found, log =>
    let checked := gateLogged self time it
    if checked.1 then
      gateLoopLogged self time rest (found ++ [it]) (log ++ [checked.2])
    else
      gateLoopLogged self time rest found (log ++ [checked.2])

/-- `Filter::filterByVelocity` (lines 86-260) with the log of the divisors of
its calls of `velocity`, in the order of the calls: those of the gating loops
(lines 140 and 204), those that update `prevVel_` (lines 182 and 250), and
those of the nested call (line 232). -/
def filterByVelocityLogged (ret : Box) (sel : Cluster) (self : Filter) (input : List Cluster)
    (tsSec tsNsec : Int) (output : List Box) : (Filter × List Box) × List ℚ :=
  let time := toTime tsSec tsNsec
  if hin : input = [] then
    if !self.initialized_ then
      ((self, output), [])
    else
      ((self, output ++ [predict self time]), [])
  else if hv : (!self.initialized_ || !self.valid_) = true then
    if self.initStartTime_ < 0 then
      let current := pickCurrent sel input hin
      let box := toBox ret current
      (({ self with prevVel_ := ⟨0, 0⟩, prevTime_ := time, prevBox_ := box,
                    initStartTime_ := time },
        output ++ [box]), [])
    else
      let looped := gateLoopLogged self time input [] []
      if hf : looped.1 = [] then
        let self1 := { self with initStartTime_ := -1 }
        if !self1.initialized_ then
          ((self1, output), looped.2)
        else
          ((self1, output ++ [predict self1 time]), looped.2)
      else
        let current := pickCurrent sel looped.1 hf
        let box := toBox ret current
        let point : Vector2 := ⟨current.center.x, current.center.y⟩
        let called := velocityLogged self point time
        let self1 := { self with prevVel_ := called.1, prevTime_ := time, prevBox_ := box }
        if time - self1.initStartTime_ > self1.initTime_ then
          (({ self1 with initialized_ := true, valid_ := true, initStartTime_ := -1 },
            output ++ [box]), looped.2 ++ [called.2])
        else
          ((self1, output ++ [box]), looped.2 ++ [called.2])
  else
    let looped := gateLoopLogged self time input [] []
    if hf : looped.1 = [] then
      let output1 := output ++ [predict self time]
      if self.resetStartTime_ < 0 then
        (({ self with resetStartTime_ := time }, output1), looped.2)
      else if time - self.resetStartTime_ > self.resetTime_ then
        let self1 := { self with valid_ := false, resetStartTime_ := -1 }
        let dummy : List Box := []
        let nested := filterByVelocityLogged ret sel self1 input tsSec tsNsec dummy
        ((nested.1.1, output1), looped.2 ++ nested.2)
      else
        ((self, output1), looped.2)
    else
      let current := pickCurrent sel looped.1 hf
      let box := toBox ret current
      let point : Vector2 := ⟨current.center.x, current.center.y⟩
      let called := velocityLogged self point time
      (({ self with prevVel_ := called.1, prevTime_ := time, prevBox_ := box,
                    initStartTime_ := -1, resetStartTime_ := -1 },
        output ++ [box]), looped.2 ++ [called.2])
termination_by (if self.valid_ = true then 1 else 0)
decreasing_by
  simp only [Bool.or_eq_true, Bool.not_eq_true', not_or, Bool.not_eq_false] at hv
  simp [hv.2]

/-- The log of `filterByVelocityLogged` in closed form: the divisors
`time - prevTime_` of the calls of `velocity` made during one call of
`filterByVelocity`, one per candidate in a gating loop and one more when a
candidate was found, those of the nested call included
(`filterByVelocityLogged_eq`). -/
def velocityDivisors (self : Filter) (input : List Cluster) (tsSec tsNsec : Int) : List ℚ :=
  let time := toTime tsSec tsNsec
  if input = [] then
    []
  else if hv : (!self.initialized_ || !self.valid_) = true then
    if self.initStartTime_ < 0 then
      []
    else
      let found := gateLoop self time input []
      input.map (fun _ => time - self.prevTime_)
        ++ (if found = [] then [] else [time - self.prevTime_])
  else
    let found := gateLoop self time input []
    input.map (fun _ => time - self.prevTime_)
      ++ (if found = [] then
            if self.resetStartTime_ < 0 then
              []
            else if time - self.resetStartTime_ > self.resetTime_ then
              velocityDivisors { self with valid_ := false, resetStartTime_ := -1 }
                input tsSec tsNsec
            else
              []
          else
            [time - self.prevTime_])
termination_by (if self.valid_ = true then 1 else 0)
decreasing_by
  simp only [Bool.or_eq_true, Bool.not_eq_true', not_or, Bool.not_eq_false] at hv
  simp [hv.2]

/-! ## Concrete data used by the examples -/

/-- A set of threshold values used in the concrete examples. -/
def K0 : Constants where
  CAR_SPEED_LIMIT := 30
  CAR_FILTER_INIT_TIME := 1
  CAR_FILTER_RESET_TIME := 1
  PEDESTRIAN_SPEED_LIMIT := 3
  PEDESTRIAN_FILTER_INIT_TIME := 1
  PEDESTRIAN_FILTER_RESET_TIME := 1
  GROUND_Z := -2
  CAR_MAX_WIDTH := 6
  CAR_MIN_DEPTH := 1
  CAR_MAX_DEPTH := 3
  CAR_MIN_POINT_COUNT := 20
  CAR_MAX_AREA := 20
  PEDESTRIAN_MAX_WIDTH := 1
  PEDESTRIAN_MIN_DEPTH := 1
  PEDESTRIAN_MAX_DEPTH := 2
  PEDESTRIAN_MAX_BASE := 0
  PEDESTRIAN_MIN_POINT_COUNT := 5
  PEDESTRIAN_MAX_AREA := 2

/-- The all-zero cluster. -/
def zeroCluster : Cluster :=
  { min := ⟨0, 0, 0⟩, max := ⟨0, 0, 0⟩, center := ⟨0, 0, 0⟩, pointCount := 0, area := 0 }

/-- The all-zero box. -/
def zeroBox : Box := ⟨0, 0, 0, 0, 0, 0⟩

/-- A filter object in the given mode with the given speed limit and
durations, no timer running, not initialized, all kinematics zero. -/
def idleFilter (mode : String) (speedLimit initTime resetTime : ℚ) : Filter :=
  { mode_ := mode, speedLimit_ := speedLimit, initTime_ := initTime,
    resetTime_ := resetTime, initStartTime_ := -1, resetStartTime_ := -1,
    initialized_ := false, valid_ := false, prevTime_ := 0, prevVel_ := ⟨0, 0⟩,
    prevBox_ := zeroBox, prevCluster_ := zeroCluster }

/-- A cluster whose footprint is `w` by `h`, whose top is at height `top` and
base at `base`, with the given point count and area. -/
def sizedCluster (w h base top : ℚ) (n : Int) (area : ℚ) : Cluster :=
  { min := ⟨0, 0, base⟩, max := ⟨w, h, top⟩, center := ⟨w / 2, h / 2, (base + top) / 2⟩,
    pointCount := n, area := area }

/-- A car filter as the constructor leaves it, built over an object whose
members are all zero. -/
def freshCar : Filter :=
  Filter.construct K0 "car" (idleFilter "" 0 0 0)

/-- A car-sized cluster centred at `(cx, cy, -1)` with `n` points. -/
def carAt (cx cy : ℚ) (n : Int) : Cluster :=
  { min := ⟨cx - 2, cy - 1, -2⟩, max := ⟨cx + 2, cy + 1, 0⟩, center := ⟨cx, cy, -1⟩,
    pointCount := n, area := 8 }

/-- A confirmed, valid car track last seen at the origin at time `0`, moving at
one metre per second along `x`, whose reset timer was started at time `0`. -/
def coastingCar : Filter :=
  { mode_ := "car", speedLimit_ := 30, initTime_ := 1, resetTime_ := 1,
    initStartTime_ := -1, resetStartTime_ := 0, initialized_ := true, valid_ := true,
    prevTime_ := 0, prevVel_ := ⟨1, 0⟩, prevBox_ := ⟨0, 0, -1, 4, 2, 2⟩,
    prevCluster_ := zeroCluster }

/-- The car filter after its first frame: one candidate centred at
`(100, 100)` at time `0`, the call of `toBox` handing back the box of that
candidate. -/
def seededCar : Filter :=
  (filterByVelocity (clusterToBox (carAt 100 100 40)) (carAt 100 100 40) freshCar
    [carAt 100 100 40] 0 0 []).1

/-- A frame at `tsSec` seconds and `tsNsec` nanoseconds with one candidate, in
which `toBox` hands back the box of that candidate. -/
def frameOf (c : Cluster) (tsSec tsNsec : Int) : Frame :=
  { input := [c], tsSec := tsSec, tsNsec := tsNsec, ret := clusterToBox c, sel := c }

/-- The car filter after three frames: seeded at time `0`, a consistent
candidate at `0.5`, and a consistent candidate at `2`, on which it is promoted. -/
def trackingCar : Filter :=
  run freshCar [frameOf (carAt 0 0 40) 0 0, frameOf (carAt 1 0 40) 0 500000000,
    frameOf (carAt 2 0 40) 2 0]

/-- The tracking car filter after a further frame at time `3` whose only
candidate, 1000 m away, fails the gate: the reset timer is started. -/
def lostCar : Filter :=
  step trackingCar (frameOf (carAt 1000 0 50) 3 0)

/-! ## Size filter: lemmas -/

theorem filterBySize_eq_append (K : Constants) (self : Filter) (input output : List Cluster) :
    filterBySize K self input output = output ++ input.filter (passesSize K self) := by
  induction input generalizing output with
  | nil => simp [filterBySize]
  | cons cit rest ih =>
    by_cases h : passesSize K self cit = true
    · simp [filterBySize, h, ih]
    · simp [filterBySize, h, ih]

theorem passesSize_car (K : Constants) (self : Filter) (hmode : self.mode_ = "car")
    (c : Cluster) :
    passesSize K self c = true ↔
      (K.PEDESTRIAN_MAX_WIDTH ≤ maxWidth c ∧ maxWidth c ≤ K.CAR_MAX_WIDTH
        ∧ K.GROUND_Z + K.CAR_MIN_DEPTH ≤ c.max.z ∧ c.max.z ≤ K.GROUND_Z + K.CAR_MAX_DEPTH
        ∧ K.CAR_MIN_POINT_COUNT ≤ c.pointCount ∧ c.area ≤ K.CAR_MAX_AREA) := by
  simp only [passesSize, hmode, if_true]
  split_ifs with h1 h2 h3
  · simp only [Bool.false_eq_true, false_iff]
    rintro ⟨a, b, c1, d, -, -⟩
    rcases h1 with h | h | h | h
    · exact absurd a (not_le.mpr h)
    · exact absurd b (not_le.mpr h)
    · exact absurd c1 (not_le.mpr h)
    · exact absurd d (not_le.mpr h)
  · simp only [Bool.false_eq_true, false_iff]
    rintro ⟨-, -, -, -, e, -⟩
    exact absurd e (not_le.mpr h2)
  · simp only [Bool.false_eq_true, false_iff]
    rintro ⟨-, -, -, -, -, g⟩
    exact absurd g (not_le.mpr h3)
  · simp only [not_or, not_lt] at h1
    simp only [true_iff]
    exact ⟨h1.1, h1.2.1, h1.2.2.1, h1.2.2.2, not_lt.mp h2, not_lt.mp h3⟩

theorem passesSize_ped (K : Constants) (self : Filter) (hmode : self.mode_ = "ped")
    (c : Cluster) :
    passesSize K self c = true ↔
      (maxWidth c ≤ K.PEDESTRIAN_MAX_WIDTH
        ∧ K.GROUND_Z + K.PEDESTRIAN_MIN_DEPTH ≤ c.max.z
        ∧ c.max.z ≤ K.GROUND_Z + K.PEDESTRIAN_MAX_DEPTH
        ∧ c.min.z ≤ K.PEDESTRIAN_MAX_BASE
        ∧ K.PEDESTRIAN_MIN_POINT_COUNT ≤ c.pointCount ∧ c.area ≤ K.PEDESTRIAN_MAX_AREA) := by
  have hne : ¬ ("ped" = "car") := by decide
  simp only [passesSize, hmode, hne, if_true, if_false]
  split_ifs with h1 h2 h3 h4
  · simp only [Bool.false_eq_true, false_iff]
    rintro ⟨a, b, c1, -, -, -⟩
    rcases h1 with h | h | h
    · exact absurd a (not_le.mpr h)
    · exact absurd b (not_le.mpr h)
    · exact absurd c1 (not_le.mpr h)
  · simp only [Bool.false_eq_true, false_iff]
    rintro ⟨-, -, -, d, -, -⟩
    exact absurd d (not_le.mpr h2)
  · simp only [Bool.false_eq_true, false_iff]
    rintro ⟨-, -, -, -, e, -⟩
    exact absurd e (not_le.mpr h3)
  · simp only [Bool.false_eq_true, false_iff]
    rintro ⟨-, -, -, -, -, g⟩
    exact absurd g (not_le.mpr h4)
  · simp only [not_or, not_lt] at h1
    simp only [true_iff]
    exact ⟨h1.1, h1.2.1, h1.2.2, not_lt.mp h2, not_lt.mp h3, not_lt.mp h4⟩

theorem passesSize_other (K : Constants) (self : Filter) (hcar : self.mode_ ≠ "car")
    (hped : self.mode_ ≠ "ped") (c : Cluster) : passesSize K self c = true := by
  simp only [passesSize, hcar, hped, if_false]

/-- C1. For every mode and every input sequence, `filterBySize` started on an
empty output returns exactly the clusters of the input that pass the gates of
the mode, in their original order. In mode `"car"` these are the clusters with
`PEDESTRIAN_MAX_WIDTH <= maxWidth <= CAR_MAX_WIDTH`,
`GROUND_Z + CAR_MIN_DEPTH <= top <= GROUND_Z + CAR_MAX_DEPTH`,
`pointCount >= CAR_MIN_POINT_COUNT` and `area <= CAR_MAX_AREA`; in mode `"ped"`
those with `maxWidth <= PEDESTRIAN_MAX_WIDTH`,
`GROUND_Z + PEDESTRIAN_MIN_DEPTH <= top <= GROUND_Z + PEDESTRIAN_MAX_DEPTH`,
`base <= PEDESTRIAN_MAX_BASE`, `pointCount >= PEDESTRIAN_MIN_POINT_COUNT` and
`area <= PEDESTRIAN_MAX_AREA`; any other mode string applies no gate. The
result is a sub-sequence of the input: nothing is added, duplicated, changed or
reordered. -/
theorem filterBySize_subsequence (K : Constants) (self : Filter) (input : List Cluster) :
    filterBySize K self input []
        = input.filter (fun c => decide (
            (self.mode_ = "car" →
              K.PEDESTRIAN_MAX_WIDTH ≤ Max.max (c.max.x - c.min.x) (c.max.y - c.min.y)
                ∧ Max.max (c.max.x - c.min.x) (c.max.y - c.min.y) ≤ K.CAR_MAX_WIDTH
                ∧ K.GROUND_Z + K.CAR_MIN_DEPTH ≤ c.max.z
                ∧ c.max.z ≤ K.GROUND_Z + K.CAR_MAX_DEPTH
                ∧ K.CAR_MIN_POINT_COUNT ≤ c.pointCount ∧ c.area ≤ K.CAR_MAX_AREA)
            ∧ (self.mode_ = "ped" →
              Max.max (c.max.x - c.min.x) (c.max.y - c.min.y) ≤ K.PEDESTRIAN_MAX_WIDTH
                ∧ K.GROUND_Z + K.PEDESTRIAN_MIN_DEPTH ≤ c.max.z
                ∧ c.max.z ≤ K.GROUND_Z + K.PEDESTRIAN_MAX_DEPTH
                ∧ c.min.z ≤ K.PEDESTRIAN_MAX_BASE
                ∧ K.PEDESTRIAN_MIN_POINT_COUNT ≤ c.pointCount
                ∧ c.area ≤ K.PEDESTRIAN_MAX_AREA)))
      ∧ List.Sublist (filterBySize K self input []) input := by
  have h := filterBySize_eq_append K self input []
  simp only [List.nil_append] at h
  refine ⟨?_, h ▸ List.filter_sublist input⟩
  rw [h]
  congr 1
  funext c
  rw [Bool.eq_iff_iff, decide_eq_true_iff]
  by_cases hcar : self.mode_ = "car"
  · have hne : self.mode_ ≠ "ped" := by rw [hcar]; decide
    rw [passesSize_car K self hcar c]
    constructor
    · intro hc
      exact ⟨fun _ => hc, fun hp => absurd hp hne⟩
    · intro hc
      exact hc.1 hcar
  · by_cases hped : self.mode_ = "ped"
    · rw [passesSize_ped K self hped c]
      constructor
      · intro hc
        exact ⟨fun h => absurd h hcar, fun _ => hc⟩
      · intro hc
        exact hc.2 hped
    · rw [passesSize_other K self hcar hped c]
      simp only [true_iff]
      exact ⟨fun h => absurd h hcar, fun h => absurd h hped⟩

/-- C2, as stated, fails. In car mode with `PEDESTRIAN_MAX_WIDTH = 1`, a cluster
whose `maxWidth` is exactly `1` and which passes every other gate is kept by
`filterBySize`, although `PEDESTRIAN_MAX_WIDTH < maxWidth` is false. -/
theorem filterBySize_car_keeps_pedestrianMaxWidth :
    filterBySize K0 (idleFilter "car" 30 1 1) [sizedCluster 1 1 (-2) 0 30 1] []
        = [sizedCluster 1 1 (-2) 0 30 1]
      ∧ maxWidth (sizedCluster 1 1 (-2) 0 30 1) = K0.PEDESTRIAN_MAX_WIDTH
      ∧ ¬ (K0.PEDESTRIAN_MAX_WIDTH < maxWidth (sizedCluster 1 1 (-2) 0 30 1)) := by
  refine ⟨?_, ?_, ?_⟩ <;>
    norm_num [filterBySize, passesSize, idleFilter, sizedCluster, K0, maxWidth]

/-- C2, amended. In car mode a cluster is in the result of `filterBySize` if and
only if it is in the input and `PEDESTRIAN_MAX_WIDTH <= maxWidth <= CAR_MAX_WIDTH`,
`GROUND_Z + CAR_MIN_DEPTH <= top <= GROUND_Z + CAR_MAX_DEPTH`,
`pointCount >= CAR_MIN_POINT_COUNT` and `area <= CAR_MAX_AREA`, with
`maxWidth = max (max.x - min.x) (max.y - min.y)` and `top = max.z`: both ends of
the width interval are closed. -/
theorem filterBySize_car_iff (K : Constants) (self : Filter) (hmode : self.mode_ = "car")
    (input : List Cluster) (c : Cluster) :
    c ∈ filterBySize K self input [] ↔
      c ∈ input
        ∧ K.PEDESTRIAN_MAX_WIDTH ≤ Max.max (c.max.x - c.min.x) (c.max.y - c.min.y)
        ∧ Max.max (c.max.x - c.min.x) (c.max.y - c.min.y) ≤ K.CAR_MAX_WIDTH
        ∧ K.GROUND_Z + K.CAR_MIN_DEPTH ≤ c.max.z ∧ c.max.z ≤ K.GROUND_Z + K.CAR_MAX_DEPTH
        ∧ K.CAR_MIN_POINT_COUNT ≤ c.pointCount ∧ c.area ≤ K.CAR_MAX_AREA := by
  rw [filterBySize_eq_append, List.nil_append, List.mem_filter, passesSize_car K self hmode]
  rfl

/-- Witness of C2 (amended): in car mode the cluster whose `maxWidth` is
exactly `CAR_MAX_WIDTH = 6` is kept. -/
theorem filterBySize_car_iff_witness :
    sizedCluster 6 2 (-2) 0 30 12 ∈
      filterBySize K0 (idleFilter "car" 30 1 1) [sizedCluster 6 2 (-2) 0 30 12] [] :=
  (filterBySize_car_iff K0 (idleFilter "car" 30 1 1) rfl
      [sizedCluster 6 2 (-2) 0 30 12] (sizedCluster 6 2 (-2) 0 30 12)).mpr
    (by norm_num [sizedCluster, K0])

/-- C3. In ped mode a cluster is in the result of `filterBySize` if and only if
it is in the input and `maxWidth <= PEDESTRIAN_MAX_WIDTH`,
`GROUND_Z + PEDESTRIAN_MIN_DEPTH <= top <= GROUND_Z + PEDESTRIAN_MAX_DEPTH`,
`base <= PEDESTRIAN_MAX_BASE`, `pointCount >= PEDESTRIAN_MIN_POINT_COUNT` and
`area <= PEDESTRIAN_MAX_AREA`, with
`maxWidth = max (max.x - min.x) (max.y - min.y)`, `top = max.z`, `base = min.z`. -/
theorem filterBySize_ped_iff (K : Constants) (self : Filter) (hmode : self.mode_ = "ped")
    (input : List Cluster) (c : Cluster) :
    c ∈ filterBySize K self input [] ↔
      c ∈ input
        ∧ Max.max (c.max.x - c.min.x) (c.max.y - c.min.y) ≤ K.PEDESTRIAN_MAX_WIDTH
        ∧ K.GROUND_Z + K.PEDESTRIAN_MIN_DEPTH ≤ c.max.z
        ∧ c.max.z ≤ K.GROUND_Z + K.PEDESTRIAN_MAX_DEPTH
        ∧ c.min.z ≤ K.PEDESTRIAN_MAX_BASE
        ∧ K.PEDESTRIAN_MIN_POINT_COUNT ≤ c.pointCount ∧ c.area ≤ K.PEDESTRIAN_MAX_AREA := by
  rw [filterBySize_eq_append, List.nil_append, List.mem_filter, passesSize_ped K self hmode]
  rfl

/-- Witness of C3: in ped mode a cluster half a metre wide, standing on the
ground, passes; the hypothesis is met by a filter built in mode `"ped"`. -/
theorem filterBySize_ped_iff_witness :
    sizedCluster (1 / 2) (1 / 2) (-2) (-1 / 2) 10 (1 / 4) ∈
      filterBySize K0 (idleFilter "ped" 3 1 1)
        [sizedCluster (1 / 2) (1 / 2) (-2) (-1 / 2) 10 (1 / 4)] [] :=
  (filterBySize_ped_iff K0 (idleFilter "ped" 3 1 1) rfl
      [sizedCluster (1 / 2) (1 / 2) (-2) (-1 / 2) 10 (1 / 4)]
      (sizedCluster (1 / 2) (1 / 2) (-2) (-1 / 2) 10 (1 / 4))).mpr
    (by norm_num [sizedCluster, K0])

/-! ## Track filter: lemmas -/

theorem gateLoop_eq_append (self : Filter) (time : ℚ) (input found : List Cluster) :
    gateLoop self time input found = found ++ input.filter (gate self time) := by
  induction input generalizing found with
  | nil => simp [gateLoop]
  | cons it rest ih =>
    by_cases h : gate self time it = true
    · simp [gateLoop, h, ih]
    · simp [gateLoop, h, ih]

theorem gateLoop_nil_eq_filter (self : Filter) (time : ℚ) (input : List Cluster) :
    gateLoop self time input [] = input.filter (gate self time) := by
  rw [gateLoop_eq_append, List.nil_append]

theorem filterByVelocity_empty (ret : Box) (sel : Cluster) (self : Filter) (tsSec tsNsec : Int)
    (output : List Box) :
    filterByVelocity ret sel self [] tsSec tsNsec output
      = (self, if self.initialized_ = true then output ++ [predict self (toTime tsSec tsNsec)]
               else output) := by
  unfold filterByVelocity
  cases h : self.initialized_ <;> simp

theorem filterByVelocity_seed (ret : Box) (sel : Cluster) (self : Filter) (input : List Cluster)
    (tsSec tsNsec : Int) (output : List Box) (hin : input ≠ [])
    (hv : self.initialized_ = false ∨ self.valid_ = false) (ht : self.initStartTime_ < 0) :
    filterByVelocity ret sel self input tsSec tsNsec output
      = ({ self with prevVel_ := ⟨0, 0⟩, prevTime_ := toTime tsSec tsNsec,
                     prevBox_ := toBox ret (pickCurrent sel input hin),
                     initStartTime_ := toTime tsSec tsNsec },
          output ++ [toBox ret (pickCurrent sel input hin)]) := by
  unfold filterByVelocity
  have hv2 : (!self.initialized_ || !self.valid_) = true := by
    rcases hv with h | h <;> simp [h]
  simp only [dif_neg hin, dif_pos hv2, if_pos ht]

theorem filterByVelocity_confirm_none (ret : Box) (sel : Cluster) (self : Filter) (input : List Cluster)
    (tsSec tsNsec : Int) (output : List Box) (hin : input ≠ [])
    (hv : self.initialized_ = false ∨ self.valid_ = false) (ht : ¬ self.initStartTime_ < 0)
    (hf : gateLoop self (toTime tsSec tsNsec) input [] = []) :
    filterByVelocity ret sel self input tsSec tsNsec output
      = ({ self with initStartTime_ := -1 },
          if self.initialized_ = true then
            output ++ [predict self (toTime tsSec tsNsec)]
          else output) := by
  unfold filterByVelocity
  have hv2 : (!self.initialized_ || !self.valid_) = true := by
    rcases hv with h | h <;> simp [h]
  simp only [dif_neg hin, dif_pos hv2, if_neg ht, dif_pos hf]
  cases h : self.initialized_ <;> simp [predict]

theorem filterByVelocity_confirm_found (ret : Box) (sel : Cluster) (self : Filter) (input : List Cluster)
    (tsSec tsNsec : Int) (output : List Box) (hin : input ≠ [])
    (hv : self.initialized_ = false ∨ self.valid_ = false) (ht : ¬ self.initStartTime_ < 0)
    (hf : gateLoop self (toTime tsSec tsNsec) input [] ≠ []) :
    filterByVelocity ret sel self input tsSec tsNsec output
      = (if toTime tsSec tsNsec - self.initStartTime_ > self.initTime_ then
            { self with
                prevVel_ := velocity self
                  ⟨(pickCurrent sel (gateLoop self (toTime tsSec tsNsec) input []) hf).center.x,
                   (pickCurrent sel (gateLoop self (toTime tsSec tsNsec) input []) hf).center.y⟩
                  (toTime tsSec tsNsec),
                prevTime_ := toTime tsSec tsNsec,
                prevBox_ := toBox ret (pickCurrent sel (gateLoop self (toTime tsSec tsNsec) input []) hf),
                initialized_ := true, valid_ := true, initStartTime_ := -1 }
          else
            { self with
                prevVel_ := velocity self
                  ⟨(pickCurrent sel (gateLoop self (toTime tsSec tsNsec) input []) hf).center.x,
                   (pickCurrent sel (gateLoop self (toTime tsSec tsNsec) input []) hf).center.y⟩
                  (toTime tsSec tsNsec),
                prevTime_ := toTime tsSec tsNsec,
                prevBox_ := toBox ret (pickCurrent sel (gateLoop self (toTime tsSec tsNsec) input []) hf) },
          output ++ [toBox ret (pickCurrent sel (gateLoop self (toTime tsSec tsNsec) input []) hf)]) := by
  unfold filterByVelocity
  have hv2 : (!self.initialized_ || !self.valid_) = true := by
    rcases hv with h | h <;> simp [h]
  simp only [dif_neg hin, dif_pos hv2, if_neg ht, dif_neg hf]
  split_ifs <;> rfl

theorem filterByVelocity_track_found (ret : Box) (sel : Cluster) (self : Filter) (input : List Cluster)
    (tsSec tsNsec : Int) (output : List Box) (hin : input ≠ [])
    (hi : self.initialized_ = true) (hva : self.valid_ = true)
    (hf : gateLoop self (toTime tsSec tsNsec) input [] ≠ []) :
    filterByVelocity ret sel self input tsSec tsNsec output
      = ({ self with
              prevVel_ := velocity self
                ⟨(pickCurrent sel (gateLoop self (toTime tsSec tsNsec) input []) hf).center.x,
                 (pickCurrent sel (gateLoop self (toTime tsSec tsNsec) input []) hf).center.y⟩
                (toTime tsSec tsNsec),
              prevTime_ := toTime tsSec tsNsec,
              prevBox_ := toBox ret (pickCurrent sel (gateLoop self (toTime tsSec tsNsec) input []) hf),
              initStartTime_ := -1, resetStartTime_ := -1 },
          output ++ [toBox ret (pickCurrent sel (gateLoop self (toTime tsSec tsNsec) input []) hf)]) := by
  unfold filterByVelocity
  have hv2 : ¬ (!self.initialized_ || !self.valid_) = true := by simp [hi, hva]
  simp only [dif_neg hin, dif_neg hv2, dif_neg hf]

theorem filterByVelocity_track_none_start (ret : Box) (sel : Cluster) (self : Filter) (input : List Cluster)
    (tsSec tsNsec : Int) (output : List Box) (hin : input ≠ [])
    (hi : self.initialized_ = true) (hva : self.valid_ = true)
    (hf : gateLoop self (toTime tsSec tsNsec) input [] = [])
    (hr : self.resetStartTime_ < 0) :
    filterByVelocity ret sel self input tsSec tsNsec output
      = ({ self with resetStartTime_ := toTime tsSec tsNsec },
          output ++ [predict self (toTime tsSec tsNsec)]) := by
  unfold filterByVelocity
  have hv2 : ¬ (!self.initialized_ || !self.valid_) = true := by simp [hi, hva]
  simp only [dif_neg hin, dif_neg hv2, dif_pos hf, if_pos hr]

theorem filterByVelocity_track_none_hold (ret : Box) (sel : Cluster) (self : Filter) (input : List Cluster)
    (tsSec tsNsec : Int) (output : List Box) (hin : input ≠ [])
    (hi : self.initialized_ = true) (hva : self.valid_ = true)
    (hf : gateLoop self (toTime tsSec tsNsec) input [] = [])
    (hr : ¬ self.resetStartTime_ < 0)
    (hd : ¬ toTime tsSec tsNsec - self.resetStartTime_ > self.resetTime_) :
    filterByVelocity ret sel self input tsSec tsNsec output
      = (self, output ++ [predict self (toTime tsSec tsNsec)]) := by
  unfold filterByVelocity
  have hv2 : ¬ (!self.initialized_ || !self.valid_) = true := by simp [hi, hva]
  simp only [dif_neg hin, dif_neg hv2, dif_pos hf, if_neg hr, if_neg hd]

theorem filterByVelocity_track_none_demote (ret : Box) (sel : Cluster) (self : Filter) (input : List Cluster)
    (tsSec tsNsec : Int) (output : List Box) (hin : input ≠ [])
    (hi : self.initialized_ = true) (hva : self.valid_ = true)
    (hf : gateLoop self (toTime tsSec tsNsec) input [] = [])
    (hr : ¬ self.resetStartTime_ < 0)
    (hd : toTime tsSec tsNsec - self.resetStartTime_ > self.resetTime_) :
    filterByVelocity ret sel self input tsSec tsNsec output
      = ((filterByVelocity ret sel { self with valid_ := false, resetStartTime_ := -1 }
            input tsSec tsNsec []).1,
          output ++ [predict self (toTime tsSec tsNsec)]) := by
  conv_lhs => unfold filterByVelocity
  have hv2 : ¬ (!self.initialized_ || !self.valid_) = true := by simp [hi, hva]
  simp only [dif_neg hin, dif_neg hv2, dif_pos hf, if_neg hr, if_pos hd]

/-- What one call appends: nothing, or exactly one box. -/
theorem filterByVelocity_output (ret : Box) (sel : Cluster) (self : Filter) (input : List Cluster)
    (tsSec tsNsec : Int) (output : List Box) :
    (filterByVelocity ret sel self input tsSec tsNsec output).2 = output
      ∨ ∃ b, (filterByVelocity ret sel self input tsSec tsNsec output).2 = output ++ [b] := by
  by_cases hin : input = []
  · subst hin
    rw [filterByVelocity_empty]
    by_cases h : self.initialized_ = true
    · exact Or.inr ⟨predict self (toTime tsSec tsNsec), by simp [h]⟩
    · exact Or.inl (by simp [h])
  · by_cases hv : self.initialized_ = false ∨ self.valid_ = false
    · by_cases ht : self.initStartTime_ < 0
      · rw [filterByVelocity_seed ret sel self input tsSec tsNsec output hin hv ht]
        exact Or.inr ⟨_, rfl⟩
      · by_cases hf : gateLoop self (toTime tsSec tsNsec) input [] = []
        · rw [filterByVelocity_confirm_none ret sel self input tsSec tsNsec output hin hv ht hf]
          by_cases h : self.initialized_ = true
          · exact Or.inr ⟨predict self (toTime tsSec tsNsec), by simp [h]⟩
          · exact Or.inl (by simp [h])
        · rw [filterByVelocity_confirm_found ret sel self input tsSec tsNsec output hin hv ht hf]
          exact Or.inr ⟨_, rfl⟩
    · have hi : self.initialized_ = true := by
        cases h : self.initialized_
        · exact absurd (Or.inl h) hv
        · rfl
      have hva : self.valid_ = true := by
        cases h : self.valid_
        · exact absurd (Or.inr h) hv
        · rfl
      by_cases hf : gateLoop self (toTime tsSec tsNsec) input [] = []
      · by_cases hr : self.resetStartTime_ < 0
        · rw [filterByVelocity_track_none_start ret sel self input tsSec tsNsec output hin hi hva hf hr]
          exact Or.inr ⟨_, rfl⟩
        · by_cases hd : toTime tsSec tsNsec - self.resetStartTime_ > self.resetTime_
          · rw [filterByVelocity_track_none_demote ret sel self input tsSec tsNsec output
              hin hi hva hf hr hd]
            exact Or.inr ⟨_, rfl⟩
          · rw [filterByVelocity_track_none_hold ret sel self input tsSec tsNsec output
              hin hi hva hf hr hd]
            exact Or.inr ⟨_, rfl⟩
      · rw [filterByVelocity_track_found ret sel self input tsSec tsNsec output hin hi hva hf]
        exact Or.inr ⟨_, rfl⟩

/-- C4. For every state, every candidate sequence and every timestamp (and
whatever values the calls of `toBox` and `selectCluster` hand back), one call
of `filterByVelocity` on an empty output leaves at most one box in the output;
the frame on which the track is demoted and the function calls itself is one of
the cases. -/
theorem filterByVelocity_at_most_one_box (ret : Box) (sel : Cluster) (self : Filter)
    (input : List Cluster) (tsSec tsNsec : Int) :
    (filterByVelocity ret sel self input tsSec tsNsec []).2.length ≤ 1 := by
  rcases filterByVelocity_output ret sel self input tsSec tsNsec [] with h | ⟨b, h⟩
  · rw [h]; simp
  · rw [h]; simp

/-- C7. For every state and every timestamp, a frame with an empty candidate
list outputs nothing when `initialized_` is false, and otherwise exactly one
box: `prevBox_` with `px` increased by `prevVel_.x * (now - prevTime_)`, `py`
increased by `prevVel_.y * (now - prevTime_)`, and `pz`, `width`, `height`,
`depth` those of `prevBox_`. -/
theorem filterByVelocity_empty_predicts (ret : Box) (sel : Cluster) (self : Filter) (tsSec tsNsec : Int) :
    (filterByVelocity ret sel self [] tsSec tsNsec []).2
      = if self.initialized_ = true then
          [{ px := self.prevBox_.px + self.prevVel_.x * (toTime tsSec tsNsec - self.prevTime_),
             py := self.prevBox_.py + self.prevVel_.y * (toTime tsSec tsNsec - self.prevTime_),
             pz := self.prevBox_.pz, width := self.prevBox_.width,
             height := self.prevBox_.height, depth := self.prevBox_.depth }]
        else [] := by
  rw [filterByVelocity_empty]
  by_cases h : self.initialized_ = true
  · simp [h, predict]
  · simp [h]

theorem gateLoop_eq_nil_iff (self : Filter) (time : ℚ) (input : List Cluster) :
    gateLoop self time input [] = [] ↔ ∀ c ∈ input, gate self time c = false := by
  rw [gateLoop_nil_eq_filter, List.filter_eq_nil_iff]
  simp

theorem selectLoop_spec (cluster : Cluster) (rest : List Cluster) :
    (selectLoop cluster rest = cluster ∧ ∀ c ∈ rest, c.pointCount ≤ cluster.pointCount)
      ∨ ∃ pre post, rest = pre ++ selectLoop cluster rest :: post
          ∧ (∀ c ∈ pre, c.pointCount < (selectLoop cluster rest).pointCount)
          ∧ cluster.pointCount < (selectLoop cluster rest).pointCount
          ∧ ∀ c ∈ post, c.pointCount ≤ (selectLoop cluster rest).pointCount := by
  induction rest generalizing cluster with
  | nil => exact Or.inl ⟨rfl, by simp⟩
  | cons it rest ih =>
    by_cases hgt : it.pointCount > cluster.pointCount
    · have hstep : selectLoop cluster (it :: rest) = selectLoop it rest := by
        simp [selectLoop, hgt]
      rw [hstep]
      rcases ih it with ⟨hr, hall⟩ | ⟨pre, post, hsplit, hpre, hlt, hpost⟩
      · refine Or.inr ⟨[], rest, ?_, ?_, ?_, ?_⟩
        · simp [hr]
        · simp
        · rw [hr]; exact hgt
        · rw [hr]; exact hall
      · refine Or.inr ⟨it :: pre, post, ?_, ?_, ?_, hpost⟩
        · rw [List.cons_append, ← hsplit]
        · intro c hc
          rcases List.mem_cons.mp hc with h | h
          · rw [h]; exact hlt
          · exact hpre c h
        · exact lt_trans hgt hlt
    · have hstep : selectLoop cluster (it :: rest) = selectLoop cluster rest := by
        simp [selectLoop, hgt]
      rw [hstep]
      have hle : it.pointCount ≤ cluster.pointCount := not_lt.mp hgt
      rcases ih cluster with ⟨hr, hall⟩ | ⟨pre, post, hsplit, hpre, hlt, hpost⟩
      · refine Or.inl ⟨hr, ?_⟩
        intro c hc
        rcases List.mem_cons.mp hc with h | h
        · rw [h]; exact hle
        · exact hall c h
      · refine Or.inr ⟨it :: pre, post, ?_, ?_, hlt, hpost⟩
        · rw [List.cons_append, ← hsplit]
        · intro c hc
          rcases List.mem_cons.mp hc with h | h
          · rw [h]; exact lt_of_le_of_lt hle hlt
          · exact hpre c h

/-- The local `cluster` of `selectCluster` at the `return` statement: for the
input `first :: rest` it is an element such that every element before it has
strictly fewer points and every element after it has at most as many, the
first element of largest `pointCount`. -/
theorem selectLoop_first_largest (first : Cluster) (rest : List Cluster) :
    ∃ pre post, first :: rest = pre ++ selectLoop first rest :: post
      ∧ (∀ c ∈ pre, c.pointCount < (selectLoop first rest).pointCount)
      ∧ (∀ c ∈ post, c.pointCount ≤ (selectLoop first rest).pointCount) := by
  rcases selectLoop_spec first rest with ⟨hr, hall⟩ | ⟨pre, post, hsplit, hpre, hlt, hpost⟩
  · refine ⟨[], rest, ?_, ?_, ?_⟩
    · simp [hr]
    · simp
    · rw [hr]; exact hall
  · refine ⟨first :: pre, post, ?_, ?_, hpost⟩
    · rw [List.cons_append, ← hsplit]
    · intro c hc
      rcases List.mem_cons.mp hc with h1 | h1
      · rw [h1]; exact hlt
      · exact hpre c h1

/-- C10, the code at a concrete sequence. Of three clusters with 5, 9 and 9
points the local `cluster` holds the second one at the `return`, the first of
the two with 9 points, as the claim says. The function returns a reference to
that local, which is destroyed on return; the caller copies whatever it reads
there, here the all-zero cluster, which is not the element the claim names. -/
theorem selectCluster_result_from_dead_local :
    selectLoop (carAt 0 0 5) [carAt 1 0 9, carAt 2 0 9] = carAt 1 0 9
      ∧ selectCluster zeroCluster [carAt 0 0 5, carAt 1 0 9, carAt 2 0 9]
          (List.cons_ne_nil _ _) = zeroCluster
      ∧ zeroCluster ≠ carAt 1 0 9 := by
  refine ⟨?_, rfl, ?_⟩
  · simp [selectLoop, carAt]
  · simp [zeroCluster, carAt]

/-! ## Rounding of timestamps -/

theorem roundHalfEven_near (x : ℚ) (m : ℤ) (h1 : (m : ℚ) - 1 / 2 < x) (h2 : x < m + 1 / 2) :
    roundHalfEven x = m := by
  unfold roundHalfEven
  by_cases hx : (m : ℚ) ≤ x
  · have hf : ⌊x⌋ = m := by
      rw [Int.floor_eq_iff]
      exact ⟨hx, by linarith⟩
    simp only [hf]
    rw [if_pos (by linarith)]
  · have hx' : x < m := not_le.mp hx
    have hf : ⌊x⌋ = m - 1 := by
      rw [Int.floor_eq_iff]
      constructor
      · push_cast; linarith
      · push_cast; linarith
    simp only [hf]
    have h3 : ¬ (x - ((m - 1 : ℤ) : ℚ) < 1 / 2) := by push_cast; linarith
    have h4 : x - ((m - 1 : ℤ) : ℚ) > 1 / 2 := by push_cast; linarith
    rw [if_neg h3, if_pos h4]
    ring

theorem log_two_eq (q : ℚ) (k : ℤ) (hpos : 0 < q) (hlo : (2 : ℚ) ^ k ≤ q)
    (hhi : q < (2 : ℚ) ^ (k + 1)) : Int.log 2 q = k := by
  have h1 : k ≤ Int.log 2 q := by
    rw [← Int.zpow_le_iff_le_log (by norm_num) hpos]
    simpa using hlo
  have h2 : Int.log 2 q < k + 1 := by
    rw [← Int.lt_zpow_iff_log_lt (by norm_num) hpos]
    simpa using hhi
  omega

/-- A positive `q` in the binade `[2^k, 2^(k+1))` rounds to `m * 2^(k-52)` when
`m` is the integer within one half of `q / 2^(k-52)`. -/
theorem roundDouble_of (q : ℚ) (k m : ℤ) (hpos : 0 < q) (hlo : (2 : ℚ) ^ k ≤ q)
    (hhi : q < (2 : ℚ) ^ (k + 1)) (h1 : (m : ℚ) - 1 / 2 < q / 2 ^ (k - 52))
    (h2 : q / 2 ^ (k - 52) < m + 1 / 2) :
    roundDouble q = m * 2 ^ (k - 52) := by
  unfold roundDouble
  rw [if_neg (ne_of_gt hpos)]
  simp only [abs_of_pos hpos, log_two_eq q k hpos hlo hhi]
  rw [roundHalfEven_near _ m h1 h2]

theorem roundDouble_zero : roundDouble 0 = 0 := by
  simp [roundDouble]

/-- The constant `nano` is the `double` nearest to `1/10^9`. -/
theorem nano_eq_roundDouble : nano = roundDouble (1 / 1000000000) := by
  rw [roundDouble_of (1 / 1000000000) (-30) 4835703278458517 (by norm_num) (by norm_num)
    (by norm_num) (by norm_num) (by norm_num), nano]
  norm_num

theorem toTime_whole (tsSec : Int) : toTime tsSec 0 = roundDouble (tsSec : ℚ) := by
  simp [toTime, roundDouble_zero]

theorem toTime_0_0 : toTime 0 0 = 0 := by
  rw [toTime_whole]
  simp [roundDouble_zero]

theorem toTime_1_0 : toTime 1 0 = 1 := by
  rw [toTime_whole, Int.cast_one, roundDouble_of 1 0 (2 ^ 52) (by norm_num) (by norm_num)
    (by norm_num) (by norm_num) (by norm_num)]
  norm_num

theorem toTime_2_0 : toTime 2 0 = 2 := by
  rw [toTime_whole, Int.cast_ofNat, roundDouble_of 2 1 (2 ^ 52) (by norm_num) (by norm_num)
    (by norm_num) (by norm_num) (by norm_num)]
  norm_num

theorem toTime_3_0 : toTime 3 0 = 3 := by
  rw [toTime_whole, Int.cast_ofNat, roundDouble_of 3 1 (3 * 2 ^ 51) (by norm_num)
    (by norm_num) (by norm_num) (by norm_num) (by norm_num)]
  norm_num

theorem toTime_5_0 : toTime 5 0 = 5 := by
  rw [toTime_whole, Int.cast_ofNat, roundDouble_of 5 2 (5 * 2 ^ 50) (by norm_num)
    (by norm_num) (by norm_num) (by norm_num) (by norm_num)]
  norm_num

theorem toTime_0_500000000 : toTime 0 500000000 = 1 / 2 := by
  have hp : roundDouble (4835703278458517 / 2 ^ 82 * 500000000) = 1 / 2 := by
    rw [roundDouble_of _ (-1) (2 ^ 52) (by norm_num) (by norm_num) (by norm_num) (by norm_num)
      (by norm_num)]
    norm_num
  have h : roundDouble (1 / 2) = 1 / 2 := by
    rw [roundDouble_of _ (-1) (2 ^ 52) (by norm_num) (by norm_num) (by norm_num) (by norm_num)
      (by norm_num)]
    norm_num
  rw [toTime, nano]
  push_cast
  rw [hp]
  norm_num [h]

/-- The times of the timestamps used in the concrete examples below. -/
theorem toTime_values :
    toTime 0 0 = 0 ∧ toTime 1 0 = 1 ∧ toTime 2 0 = 2 ∧ toTime 3 0 = 3 ∧ toTime 5 0 = 5
      ∧ toTime 0 500000000 = 1 / 2 :=
  ⟨toTime_0_0, toTime_1_0, toTime_2_0, toTime_3_0, toTime_5_0, toTime_0_500000000⟩

theorem toTime_1500000000_0 : toTime 1500000000 0 = 1500000000 := by
  rw [toTime_whole, Int.cast_ofNat,
    roundDouble_of 1500000000 30 (1500000000 * 2 ^ 22) (by norm_num) (by norm_num)
      (by norm_num) (by norm_num) (by norm_num)]
  norm_num

/-- A timestamp 100 ns after `1500000000 s` gives the same `double` as
`1500000000 s` itself: the `double`s around that value are `2^-22 s` apart,
about 238 ns. -/
theorem toTime_1500000000_100 : toTime 1500000000 100 = 1500000000 := by
  have hp : roundDouble (4835703278458517 / 2 ^ 82 * 100) = 7555786372591433 / 2 ^ 76 := by
    rw [roundDouble_of _ (-24) 7555786372591433 (by norm_num) (by norm_num) (by norm_num)
      (by norm_num) (by norm_num)]
    norm_num
  have h : roundDouble (7555786372591433 / 2 ^ 76 + 1500000000) = 1500000000 := by
    rw [roundDouble_of _ 30 (1500000000 * 2 ^ 22) (by norm_num) (by norm_num) (by norm_num)
      (by norm_num) (by norm_num)]
    norm_num
  rw [toTime, nano]
  push_cast
  rw [hp, h]

/-- A timestamp 120 ns after `1500000000 s` gives the next `double`, `2^-22 s`
later. -/
theorem toTime_1500000000_120 : toTime 1500000000 120 = 1500000000 + 1 / 2 ^ 22 := by
  have hp : roundDouble (4835703278458517 / 2 ^ 82 * 120) = 4533471823554860 / 2 ^ 75 := by
    rw [roundDouble_of _ (-23) 4533471823554860 (by norm_num) (by norm_num) (by norm_num)
      (by norm_num) (by norm_num)]
    norm_num
  have h : roundDouble (4533471823554860 / 2 ^ 75 + 1500000000) = 1500000000 + 1 / 2 ^ 22 := by
    rw [roundDouble_of _ 30 (1500000000 * 2 ^ 22 + 1) (by norm_num) (by norm_num) (by norm_num)
      (by norm_num) (by norm_num)]
    norm_num
  rw [toTime, nano]
  push_cast
  rw [hp, h]


theorem freshCar_eq :
    freshCar =
      { mode_ := "car", speedLimit_ := 30, initTime_ := 1, resetTime_ := 1,
        initStartTime_ := -1, resetStartTime_ := -1, initialized_ := false, valid_ := false,
        prevTime_ := 0, prevVel_ := ⟨0, 0⟩, prevBox_ := zeroBox, prevCluster_ := zeroCluster } := by
  simp [freshCar, Filter.construct, idleFilter, K0]

theorem seededCar_eq :
    seededCar =
      { mode_ := "car", speedLimit_ := 30, initTime_ := 1, resetTime_ := 1,
        initStartTime_ := 0, resetStartTime_ := -1, initialized_ := false, valid_ := false,
        prevTime_ := 0, prevVel_ := ⟨0, 0⟩, prevBox_ := clusterToBox (carAt 100 100 40),
        prevCluster_ := zeroCluster } := by
  rw [seededCar, filterByVelocity_seed _ _ _ _ _ _ _ (List.cons_ne_nil _ _)
    (Or.inl (by simp [freshCar_eq])) (by norm_num [freshCar_eq])]
  simp [freshCar_eq, toBox, toTime_values]

/-- C5, the code at a concrete seed frame. A freshly constructed car filter
receives one candidate at time `1`. The box put in the output is the value
handed back by the call of `toBox`, whatever the candidate: with the all-zero
box handed back the output is the all-zero box, which is not the box of the
candidate (centre and `max - min` extents); the output is the box of the
candidate only when `toBox` happens to hand that very box back. -/
theorem filterByVelocity_seed_box_from_toBox_result :
    filterByVelocity zeroBox zeroCluster freshCar [carAt 10 5 40] 1 0 []
        = ({ freshCar with prevVel_ := ⟨0, 0⟩, prevTime_ := 1, prevBox_ := zeroBox,
                           initStartTime_ := 1 }, [zeroBox])
      ∧ zeroBox ≠ clusterToBox (carAt 10 5 40)
      ∧ (filterByVelocity (clusterToBox (carAt 10 5 40)) (carAt 10 5 40) freshCar [carAt 10 5 40] 1 0 []).2
          = [clusterToBox (carAt 10 5 40)] := by
  refine ⟨?_, ?_, ?_⟩
  · rw [filterByVelocity_seed _ _ _ _ _ _ _ (List.cons_ne_nil _ _)
      (Or.inl (by simp [freshCar_eq])) (by norm_num [freshCar_eq])]
    simp [toBox, toTime_values]
  · simp [zeroBox, clusterToBox, carAt]
  · rw [filterByVelocity_seed _ _ _ _ _ _ _ (List.cons_ne_nil _ _)
      (Or.inl (by simp [freshCar_eq])) (by norm_num [freshCar_eq])]
    simp [toBox]

/-- On a frame with candidates the re-entered call, which runs with
`valid_ = false`, leaves `valid_` false when no candidate passes the gate. -/
theorem filterByVelocity_invalid_stays_invalid (ret : Box) (sel : Cluster) (self : Filter)
    (input : List Cluster) (tsSec tsNsec : Int) (output : List Box) (hin : input ≠ [])
    (hva : self.valid_ = false)
    (hf : gateLoop self (toTime tsSec tsNsec) input [] = []) :
    (filterByVelocity ret sel self input tsSec tsNsec output).1.valid_ = false := by
  by_cases ht : self.initStartTime_ < 0
  · rw [filterByVelocity_seed ret sel self input tsSec tsNsec output hin (Or.inr hva) ht]
    exact hva
  · rw [filterByVelocity_confirm_none ret sel self input tsSec tsNsec output hin (Or.inr hva) ht hf]
    exact hva

theorem gateLoop_demoted (self : Filter) (time : ℚ) (input : List Cluster) :
    gateLoop { self with valid_ := false, resetStartTime_ := -1 } time input []
      = gateLoop self time input [] := by
  rw [gateLoop_nil_eq_filter, gateLoop_nil_eq_filter]
  rfl

/-- C8, as stated, fails. A confirmed, valid car track (reset timer started
at `0`, `resetTime_ = 1`, last box at the origin, velocity `(1, 0)`) receives at
time `2` one candidate 1000 m away, which fails the gate. Even when `toBox`
hands back the box of that candidate, the frame's output is the dead-reckoned
box at `px = 2`, not the seed box at `px = 1000`; the seed box only becomes
`prevBox_`. -/
theorem filterByVelocity_demote_frame_not_seed_box :
    coastingCar.initialized_ = true ∧ coastingCar.valid_ = true
      ∧ 0 ≤ coastingCar.resetStartTime_
      ∧ gate coastingCar (toTime 2 0) (carAt 1000 0 50) = false
      ∧ toTime 2 0 - coastingCar.resetStartTime_ > coastingCar.resetTime_
      ∧ (filterByVelocity (clusterToBox (carAt 1000 0 50)) (carAt 1000 0 50) coastingCar
            [carAt 1000 0 50] 2 0 []).2 = [⟨2, 0, -1, 4, 2, 2⟩]
      ∧ (filterByVelocity (clusterToBox (carAt 1000 0 50)) (carAt 1000 0 50) coastingCar
            [carAt 1000 0 50] 2 0 []).2 ≠ [clusterToBox (carAt 1000 0 50)]
      ∧ (filterByVelocity (clusterToBox (carAt 1000 0 50)) (carAt 1000 0 50) coastingCar
            [carAt 1000 0 50] 2 0 []).1.prevBox_ = clusterToBox (carAt 1000 0 50) := by
  have hg : gate coastingCar (toTime 2 0) (carAt 1000 0 50) = false := by
    norm_num [gate, velocity, normLt, coastingCar, carAt, zeroCluster, toTime_values]
  have hf : gateLoop coastingCar (toTime 2 0) [carAt 1000 0 50] [] = [] := by
    simp [gateLoop, hg]
  have hd : toTime 2 0 - coastingCar.resetStartTime_ > coastingCar.resetTime_ := by
    norm_num [coastingCar, toTime_values]
  have hr : ¬ coastingCar.resetStartTime_ < 0 := by norm_num [coastingCar]
  have hstep := filterByVelocity_track_none_demote (clusterToBox (carAt 1000 0 50)) (carAt 1000 0 50)
    coastingCar [carAt 1000 0 50] 2 0 [] (List.cons_ne_nil _ _) rfl rfl hf hr hd
  refine ⟨rfl, rfl, not_lt.mp hr, hg, hd, ?_, ?_, ?_⟩
  · rw [hstep]
    norm_num [predict, coastingCar, toTime_values]
  · rw [hstep]
    norm_num [predict, coastingCar, clusterToBox, carAt, toTime_values]
  · rw [hstep]
    rw [filterByVelocity_seed _ _ _ _ _ _ _ (List.cons_ne_nil _ _) (Or.inr rfl)
      (by norm_num [coastingCar])]
    simp [toBox]

/-- C8, amended. For a confirmed valid track whose reset timer is running, a
frame with a non-empty candidate list in which no candidate passes the velocity
gate and with `now - resetStartTime_ > resetTime_` makes the track invalid
(`valid_ = false`), and the frame's output is exactly one box, the
dead-reckoned one: `prevBox_` of the state before the frame moved by
`prevVel_ * (now - prevTime_)` in `px` and `py`. The box of the re-entered call
goes to the local `dummy` and is not delivered. -/
theorem filterByVelocity_demote_outputs_prediction (ret : Box) (sel : Cluster) (self : Filter)
    (input : List Cluster) (tsSec tsNsec : Int)
    (hi : self.initialized_ = true) (hva : self.valid_ = true)
    (hr : 0 ≤ self.resetStartTime_) (hin : input ≠ [])
    (hnone : ∀ c ∈ input, gate self (toTime tsSec tsNsec) c = false)
    (hd : toTime tsSec tsNsec - self.resetStartTime_ > self.resetTime_) :
    (filterByVelocity ret sel self input tsSec tsNsec []).1.valid_ = false
      ∧ (filterByVelocity ret sel self input tsSec tsNsec []).2
          = [{ px := self.prevBox_.px + self.prevVel_.x * (toTime tsSec tsNsec - self.prevTime_),
               py := self.prevBox_.py + self.prevVel_.y * (toTime tsSec tsNsec - self.prevTime_),
               pz := self.prevBox_.pz, width := self.prevBox_.width,
               height := self.prevBox_.height, depth := self.prevBox_.depth }] := by
  have hf : gateLoop self (toTime tsSec tsNsec) input [] = [] :=
    (gateLoop_eq_nil_iff self _ input).mpr hnone
  rw [filterByVelocity_track_none_demote ret sel self input tsSec tsNsec [] hin hi hva hf
    (not_lt.mpr hr) hd]
  refine ⟨?_, ?_⟩
  · exact filterByVelocity_invalid_stays_invalid ret sel _ input tsSec tsNsec [] hin rfl
      (by rw [gateLoop_demoted]; exact hf)
  · simp [predict]

/-- Witness of C8 (amended): the coasting car track at time `2` with one
candidate 1000 m away. -/
theorem filterByVelocity_demote_outputs_prediction_witness :
    (filterByVelocity zeroBox zeroCluster coastingCar [carAt 1000 0 50] 2 0 []).1.valid_ = false
      ∧ (filterByVelocity zeroBox zeroCluster coastingCar [carAt 1000 0 50] 2 0 []).2
          = [{ px := coastingCar.prevBox_.px
                      + coastingCar.prevVel_.x * (toTime 2 0 - coastingCar.prevTime_),
               py := coastingCar.prevBox_.py
                      + coastingCar.prevVel_.y * (toTime 2 0 - coastingCar.prevTime_),
               pz := coastingCar.prevBox_.pz, width := coastingCar.prevBox_.width,
               height := coastingCar.prevBox_.height, depth := coastingCar.prevBox_.depth }] :=
  filterByVelocity_demote_outputs_prediction zeroBox zeroCluster coastingCar [carAt 1000 0 50] 2 0
    rfl rfl (by norm_num [coastingCar]) (List.cons_ne_nil _ _)
    (by
      intro c hc
      rw [List.mem_singleton.mp hc]
      norm_num [gate, velocity, normLt, coastingCar, carAt, zeroCluster, toTime_values])
    (by norm_num [coastingCar, toTime_values])

/-- The test of `normLt` is the comparison of the Euclidean norm, computed with
the real square root, with the limit. -/
theorem normLt_iff_sqrt (v : Vector2) (limit : ℚ) :
    normLt v limit = true
      ↔ Real.sqrt ((v.x : ℝ) * (v.x : ℝ) + (v.y : ℝ) * (v.y : ℝ)) < (limit : ℝ) := by
  simp only [normLt, decide_eq_true_eq]
  constructor
  · rintro ⟨hpos, hlt⟩
    have hpos' : (0 : ℝ) < (limit : ℝ) := by exact_mod_cast hpos
    rw [Real.sqrt_lt' hpos']
    have : ((v.x * v.x + v.y * v.y : ℚ) : ℝ) < ((limit * limit : ℚ) : ℝ) := by
      exact_mod_cast hlt
    push_cast at this
    nlinarith [this]
  · intro h
    have hpos' : (0 : ℝ) < (limit : ℝ) := lt_of_le_of_lt (Real.sqrt_nonneg _) h
    rw [Real.sqrt_lt' hpos'] at h
    refine ⟨by exact_mod_cast hpos', ?_⟩
    have h2 : (v.x : ℝ) * (v.x : ℝ) + (v.y : ℝ) * (v.y : ℝ) < (limit : ℝ) * (limit : ℝ) := by
      nlinarith [h]
    exact_mod_cast h2

/-- C9, the code at a concrete frame. The car filter was seeded at time `0`
by a candidate centred at `(100, 100)`, so `prevBox_` sits at `(100, 100)`; the
member `prevCluster_`, which no statement of `filter.cpp` assigns, still has its
centre at the origin. At time `1` a candidate arrives half a metre from
`prevBox_`: measured from `prevBox_` its speed is `1/2 < 30` and it would be
retained, but the gate of the code measures from the centre of `prevCluster_`,
finds a speed above `30`, rejects it, emits nothing and cancels the
confirmation timer. -/
theorem gate_measures_from_prevCluster :
    seededCar.prevBox_.px = 100 ∧ seededCar.prevBox_.py = 100
      ∧ seededCar.prevCluster_.center = ⟨0, 0, 0⟩
      ∧ gateFromPrevBox seededCar (toTime 1 0) (carAt (201 / 2) 100 40) = true
      ∧ gate seededCar (toTime 1 0) (carAt (201 / 2) 100 40) = false
      ∧ filterByVelocity zeroBox zeroCluster seededCar [carAt (201 / 2) 100 40] 1 0 []
          = ({ seededCar with initStartTime_ := -1 }, []) := by
  have hg : gate seededCar (toTime 1 0) (carAt (201 / 2) 100 40) = false := by
    norm_num [seededCar_eq, gate, velocity, normLt, carAt, zeroCluster, toTime_values]
  refine ⟨?_, ?_, ?_, ?_, hg, ?_⟩
  · norm_num [seededCar_eq, clusterToBox, carAt]
  · norm_num [seededCar_eq, clusterToBox, carAt]
  · simp [seededCar_eq, zeroCluster]
  · norm_num [seededCar_eq, gateFromPrevBox, normLt, clusterToBox, carAt, toTime_values]
  · rw [filterByVelocity_confirm_none _ _ _ _ _ _ _ (List.cons_ne_nil _ _)
      (Or.inl (by simp [seededCar_eq])) (by norm_num [seededCar_eq])
      (by simp [gateLoop, hg])]
    simp [seededCar_eq]

/-- No call of `filterByVelocity` changes `prevCluster_`, the reference of the
velocity gate. -/
theorem filterByVelocity_prevCluster (ret : Box) (sel : Cluster) (self : Filter) (input : List Cluster)
    (tsSec tsNsec : Int) (output : List Box) :
    (filterByVelocity ret sel self input tsSec tsNsec output).1.prevCluster_ = self.prevCluster_ := by
  have hnv : ∀ (g : Filter) (out : List Box), input ≠ [] →
      (g.initialized_ = false ∨ g.valid_ = false) →
      (filterByVelocity ret sel g input tsSec tsNsec out).1.prevCluster_ = g.prevCluster_ := by
    intro g out hin hv
    by_cases ht : g.initStartTime_ < 0
    · rw [filterByVelocity_seed ret sel g input tsSec tsNsec out hin hv ht]
    · by_cases hf : gateLoop g (toTime tsSec tsNsec) input [] = []
      · rw [filterByVelocity_confirm_none ret sel g input tsSec tsNsec out hin hv ht hf]
      · rw [filterByVelocity_confirm_found ret sel g input tsSec tsNsec out hin hv ht hf]
        split_ifs <;> rfl
  by_cases hin : input = []
  · subst hin
    rw [filterByVelocity_empty]
  · by_cases hv : self.initialized_ = false ∨ self.valid_ = false
    · exact hnv self output hin hv
    · have hi : self.initialized_ = true := by
        cases h : self.initialized_
        · exact absurd (Or.inl h) hv
        · rfl
      have hva : self.valid_ = true := by
        cases h : self.valid_
        · exact absurd (Or.inr h) hv
        · rfl
      by_cases hf : gateLoop self (toTime tsSec tsNsec) input [] = []
      · by_cases hr : self.resetStartTime_ < 0
        · rw [filterByVelocity_track_none_start ret sel self input tsSec tsNsec output hin hi hva hf hr]
        · by_cases hd : toTime tsSec tsNsec - self.resetStartTime_ > self.resetTime_
          · rw [filterByVelocity_track_none_demote ret sel self input tsSec tsNsec output
              hin hi hva hf hr hd]
            exact hnv _ [] hin (Or.inr rfl)
          · rw [filterByVelocity_track_none_hold ret sel self input tsSec tsNsec output
              hin hi hva hf hr hd]
      · rw [filterByVelocity_track_found ret sel self input tsSec tsNsec output hin hi hva hf]

/-! ## Confirmation -/

theorem run_append_singleton (self : Filter) (pre : List Frame) (fr : Frame) :
    run self (pre ++ [fr]) = step (run self pre) fr := by
  induction pre generalizing self with
  | nil => rfl
  | cons x pre ih => exact ih (step self x)

theorem pickCurrent_singleton (sel c : Cluster) (h : [c] ≠ []) :
    pickCurrent sel [c] h = c := by
  simp [pickCurrent]

theorem step_freshCar_seed :
    step freshCar (frameOf (carAt 0 0 40) 0 0) =
      { mode_ := "car", speedLimit_ := 30, initTime_ := 1, resetTime_ := 1,
        initStartTime_ := 0, resetStartTime_ := -1, initialized_ := false, valid_ := false,
        prevTime_ := 0, prevVel_ := ⟨0, 0⟩, prevBox_ := clusterToBox (carAt 0 0 40),
        prevCluster_ := zeroCluster } := by
  show (filterByVelocity (clusterToBox (carAt 0 0 40)) (carAt 0 0 40) freshCar [carAt 0 0 40] 0 0 []).1 = _
  rw [filterByVelocity_seed _ _ _ _ _ _ _ (List.cons_ne_nil _ _)
    (Or.inl (by simp [freshCar_eq])) (by norm_num [freshCar_eq])]
  simp [freshCar_eq, toBox, pickCurrent, toTime_values]

theorem gate_after_seed :
    gate (step freshCar (frameOf (carAt 0 0 40) 0 0)) (toTime 0 500000000) (carAt 1 0 40)
      = true := by
  rw [step_freshCar_seed]
  norm_num [gate, velocity, normLt, carAt, zeroCluster, toTime_values]

theorem step_freshCar_second :
    step (step freshCar (frameOf (carAt 0 0 40) 0 0)) (frameOf (carAt 1 0 40) 0 500000000) =
      { mode_ := "car", speedLimit_ := 30, initTime_ := 1, resetTime_ := 1,
        initStartTime_ := 0, resetStartTime_ := -1, initialized_ := false, valid_ := false,
        prevTime_ := 1 / 2, prevVel_ := ⟨2, 0⟩, prevBox_ := clusterToBox (carAt 1 0 40),
        prevCluster_ := zeroCluster } := by
  have hloop : gateLoop (step freshCar (frameOf (carAt 0 0 40) 0 0)) (toTime 0 500000000)
      [carAt 1 0 40] [] = [carAt 1 0 40] := by
    simp [gateLoop, gate_after_seed]
  have hne : gateLoop (step freshCar (frameOf (carAt 0 0 40) 0 0)) (toTime 0 500000000)
      [carAt 1 0 40] [] ≠ [] := by
    rw [hloop]; exact List.cons_ne_nil _ _
  have hcur : pickCurrent (carAt 1 0 40) (gateLoop (step freshCar (frameOf (carAt 0 0 40) 0 0))
      (toTime 0 500000000) [carAt 1 0 40] []) hne = carAt 1 0 40 := by
    simp [hloop, pickCurrent]
  have h := filterByVelocity_confirm_found (clusterToBox (carAt 1 0 40)) (carAt 1 0 40)
    (step freshCar (frameOf (carAt 0 0 40) 0 0)) [carAt 1 0 40] 0 500000000 []
    (List.cons_ne_nil _ _) (Or.inl (by simp [step_freshCar_seed]))
    (by norm_num [step_freshCar_seed]) hne
  rw [hcur] at h
  show (filterByVelocity (clusterToBox (carAt 1 0 40)) (carAt 1 0 40)
    (step freshCar (frameOf (carAt 0 0 40) 0 0)) [carAt 1 0 40] 0 500000000 []).1 = _
  rw [h, step_freshCar_seed]
  norm_num [toBox, velocity, carAt, zeroCluster, toTime_values]

theorem gate_after_second :
    gate (step (step freshCar (frameOf (carAt 0 0 40) 0 0)) (frameOf (carAt 1 0 40) 0 500000000))
      (toTime 2 0) (carAt 2 0 40) = true := by
  rw [step_freshCar_second]
  norm_num [gate, velocity, normLt, carAt, zeroCluster, toTime_values]

theorem frameOf_time (c : Cluster) (tsSec tsNsec : Int) :
    (frameOf c tsSec tsNsec).time = toTime tsSec tsNsec := rfl

theorem frames_increasing_example :
    List.Pairwise (fun a b => Frame.time a < Frame.time b)
      [frameOf (carAt 0 0 40) 0 0, frameOf (carAt 1 0 40) 0 500000000,
        frameOf (carAt 2 0 40) 2 0] := by
  simp only [List.pairwise_cons, List.mem_cons, List.mem_singleton, forall_eq_or_imp, forall_eq,
    frameOf_time, List.not_mem_nil, List.Pairwise.nil]
  norm_num [toTime_values]

theorem filterByVelocity_demote_seed (ret : Box) (sel : Cluster) (self : Filter) (input : List Cluster)
    (tsSec tsNsec : Int) (output : List Box) (hin : input ≠ [])
    (hi : self.initialized_ = true) (hva : self.valid_ = true)
    (hf : gateLoop self (toTime tsSec tsNsec) input [] = [])
    (hr : ¬ self.resetStartTime_ < 0)
    (hd : toTime tsSec tsNsec - self.resetStartTime_ > self.resetTime_)
    (ht : self.initStartTime_ < 0) :
    filterByVelocity ret sel self input tsSec tsNsec output
      = ({ self with valid_ := false, resetStartTime_ := -1, prevVel_ := ⟨0, 0⟩,
                     prevTime_ := toTime tsSec tsNsec,
                     prevBox_ := toBox ret (pickCurrent sel input hin),
                     initStartTime_ := toTime tsSec tsNsec },
          output ++ [predict self (toTime tsSec tsNsec)]) := by
  rw [filterByVelocity_track_none_demote ret sel self input tsSec tsNsec output hin hi hva hf hr hd,
    filterByVelocity_seed ret sel { self with valid_ := false, resetStartTime_ := -1 }
      input tsSec tsNsec [] hin (Or.inr rfl) ht]

theorem filterByVelocity_demote_cancel (ret : Box) (sel : Cluster) (self : Filter) (input : List Cluster)
    (tsSec tsNsec : Int) (output : List Box) (hin : input ≠ [])
    (hi : self.initialized_ = true) (hva : self.valid_ = true)
    (hf : gateLoop self (toTime tsSec tsNsec) input [] = [])
    (hr : ¬ self.resetStartTime_ < 0)
    (hd : toTime tsSec tsNsec - self.resetStartTime_ > self.resetTime_)
    (ht : ¬ self.initStartTime_ < 0) :
    filterByVelocity ret sel self input tsSec tsNsec output
      = ({ self with valid_ := false, resetStartTime_ := -1, initStartTime_ := -1 },
          output ++ [predict self (toTime tsSec tsNsec)]) := by
  rw [filterByVelocity_track_none_demote ret sel self input tsSec tsNsec output hin hi hva hf hr hd,
    filterByVelocity_confirm_none ret sel { self with valid_ := false, resetStartTime_ := -1 }
      input tsSec tsNsec [] hin (Or.inr rfl) ht (by rw [gateLoop_demoted]; exact hf)]

theorem flags_true_of_not_or (self : Filter)
    (hv : ¬ (self.initialized_ = false ∨ self.valid_ = false)) :
    self.initialized_ = true ∧ self.valid_ = true := by
  constructor
  · cases h : self.initialized_
    · exact absurd (Or.inl h) hv
    · rfl
  · cases h : self.valid_
    · exact absurd (Or.inr h) hv
    · rfl

/-- Every call of `filterByVelocity` ends in one of nine ways, the two ways of
the nested call included; a property of the result that holds in each of them
holds of every call. -/
theorem filterByVelocity_elim (ret : Box) (sel : Cluster) (self : Filter) (input : List Cluster)
    (tsSec tsNsec : Int) (output : List Box) (motive : Filter × List Box → Prop)
    (h_empty : input = [] →
      motive (self, if self.initialized_ = true then
                      output ++ [predict self (toTime tsSec tsNsec)] else output))
    (h_seed : ∀ hin : input ≠ [], (self.initialized_ = false ∨ self.valid_ = false) →
      self.initStartTime_ < 0 →
      motive ({ self with prevVel_ := ⟨0, 0⟩, prevTime_ := toTime tsSec tsNsec,
                          prevBox_ := toBox ret (pickCurrent sel input hin),
                          initStartTime_ := toTime tsSec tsNsec },
              output ++ [toBox ret (pickCurrent sel input hin)]))
    (h_cancel : input ≠ [] → (self.initialized_ = false ∨ self.valid_ = false) →
      ¬ self.initStartTime_ < 0 → gateLoop self (toTime tsSec tsNsec) input [] = [] →
      motive ({ self with initStartTime_ := -1 },
              if self.initialized_ = true then
                output ++ [predict self (toTime tsSec tsNsec)] else output))
    (h_confirm : input ≠ [] → (self.initialized_ = false ∨ self.valid_ = false) →
      ¬ self.initStartTime_ < 0 →
      ∀ hf : gateLoop self (toTime tsSec tsNsec) input [] ≠ [],
      motive (if toTime tsSec tsNsec - self.initStartTime_ > self.initTime_ then
            { self with
                prevVel_ := velocity self
                  ⟨(pickCurrent sel (gateLoop self (toTime tsSec tsNsec) input []) hf).center.x,
                   (pickCurrent sel (gateLoop self (toTime tsSec tsNsec) input []) hf).center.y⟩
                  (toTime tsSec tsNsec),
                prevTime_ := toTime tsSec tsNsec,
                prevBox_ := toBox ret (pickCurrent sel (gateLoop self (toTime tsSec tsNsec) input []) hf),
                initialized_ := true, valid_ := true, initStartTime_ := -1 }
          else
            { self with
                prevVel_ := velocity self
                  ⟨(pickCurrent sel (gateLoop self (toTime tsSec tsNsec) input []) hf).center.x,
                   (pickCurrent sel (gateLoop self (toTime tsSec tsNsec) input []) hf).center.y⟩
                  (toTime tsSec tsNsec),
                prevTime_ := toTime tsSec tsNsec,
                prevBox_ := toBox ret (pickCurrent sel (gateLoop self (toTime tsSec tsNsec) input []) hf) },
          output ++ [toBox ret (pickCurrent sel (gateLoop self (toTime tsSec tsNsec) input []) hf)]))
    (h_track : input ≠ [] → self.initialized_ = true → self.valid_ = true →
      ∀ hf : gateLoop self (toTime tsSec tsNsec) input [] ≠ [],
      motive ({ self with
              prevVel_ := velocity self
                ⟨(pickCurrent sel (gateLoop self (toTime tsSec tsNsec) input []) hf).center.x,
                 (pickCurrent sel (gateLoop self (toTime tsSec tsNsec) input []) hf).center.y⟩
                (toTime tsSec tsNsec),
              prevTime_ := toTime tsSec tsNsec,
              prevBox_ := toBox ret (pickCurrent sel (gateLoop self (toTime tsSec tsNsec) input []) hf),
              initStartTime_ := -1, resetStartTime_ := -1 },
          output ++ [toBox ret (pickCurrent sel (gateLoop self (toTime tsSec tsNsec) input []) hf)]))
    (h_start : input ≠ [] → self.initialized_ = true → self.valid_ = true →
      gateLoop self (toTime tsSec tsNsec) input [] = [] → self.resetStartTime_ < 0 →
      motive ({ self with resetStartTime_ := toTime tsSec tsNsec },
              output ++ [predict self (toTime tsSec tsNsec)]))
    (h_hold : input ≠ [] → self.initialized_ = true → self.valid_ = true →
      gateLoop self (toTime tsSec tsNsec) input [] = [] → ¬ self.resetStartTime_ < 0 →
      ¬ toTime tsSec tsNsec - self.resetStartTime_ > self.resetTime_ →
      motive (self, output ++ [predict self (toTime tsSec tsNsec)]))
    (h_reseed : ∀ hin : input ≠ [], self.initialized_ = true → self.valid_ = true →
      gateLoop self (toTime tsSec tsNsec) input [] = [] → ¬ self.resetStartTime_ < 0 →
      toTime tsSec tsNsec - self.resetStartTime_ > self.resetTime_ →
      self.initStartTime_ < 0 →
      motive ({ self with valid_ := false, resetStartTime_ := -1, prevVel_ := ⟨0, 0⟩,
                          prevTime_ := toTime tsSec tsNsec,
                          prevBox_ := toBox ret (pickCurrent sel input hin),
                          initStartTime_ := toTime tsSec tsNsec },
              output ++ [predict self (toTime tsSec tsNsec)]))
    (h_recancel : input ≠ [] → self.initialized_ = true → self.valid_ = true →
      gateLoop self (toTime tsSec tsNsec) input [] = [] → ¬ self.resetStartTime_ < 0 →
      toTime tsSec tsNsec - self.resetStartTime_ > self.resetTime_ →
      ¬ self.initStartTime_ < 0 →
      motive ({ self with valid_ := false, resetStartTime_ := -1, initStartTime_ := -1 },
              output ++ [predict self (toTime tsSec tsNsec)])) :
    motive (filterByVelocity ret sel self input tsSec tsNsec output) := by
  by_cases hin : input = []
  · have h := h_empty hin
    subst hin
    rw [filterByVelocity_empty]
    exact h
  · by_cases hv : self.initialized_ = false ∨ self.valid_ = false
    · by_cases ht : self.initStartTime_ < 0
      · rw [filterByVelocity_seed ret sel self input tsSec tsNsec output hin hv ht]
        exact h_seed hin hv ht
      · by_cases hf : gateLoop self (toTime tsSec tsNsec) input [] = []
        · rw [filterByVelocity_confirm_none ret sel self input tsSec tsNsec output hin hv ht hf]
          exact h_cancel hin hv ht hf
        · rw [filterByVelocity_confirm_found ret sel self input tsSec tsNsec output hin hv ht hf]
          exact h_confirm hin hv ht hf
    · obtain ⟨hi, hva⟩ := flags_true_of_not_or self hv
      by_cases hf : gateLoop self (toTime tsSec tsNsec) input [] = []
      · by_cases hr : self.resetStartTime_ < 0
        · rw [filterByVelocity_track_none_start ret sel self input tsSec tsNsec output hin hi hva hf hr]
          exact h_start hin hi hva hf hr
        · by_cases hd : toTime tsSec tsNsec - self.resetStartTime_ > self.resetTime_
          · by_cases ht : self.initStartTime_ < 0
            · rw [filterByVelocity_demote_seed ret sel self input tsSec tsNsec output
                hin hi hva hf hr hd ht]
              exact h_reseed hin hi hva hf hr hd ht
            · rw [filterByVelocity_demote_cancel ret sel self input tsSec tsNsec output
                hin hi hva hf hr hd ht]
              exact h_recancel hin hi hva hf hr hd ht
          · rw [filterByVelocity_track_none_hold ret sel self input tsSec tsNsec output
              hin hi hva hf hr hd]
            exact h_hold hin hi hva hf hr hd
      · rw [filterByVelocity_track_found ret sel self input tsSec tsNsec output hin hi hva hf]
        exact h_track hin hi hva hf

/-! ## Frame effect, idempotence, conversion -/

/-- C18. For every state and every timestamp, a call of `filterByVelocity`
with an empty candidate list returns the filter object unchanged: every member
(`initialized_`, `valid_`, `initStartTime_`, `resetStartTime_`, `prevTime_`,
`prevVel_`, `prevBox_`, and the others) is what it was, so no timer is started,
advanced or cleared. -/
theorem filterByVelocity_empty_state_unchanged (ret : Box) (sel : Cluster) (self : Filter)
    (tsSec tsNsec : Int) (output : List Box) :
    (filterByVelocity ret sel self [] tsSec tsNsec output).1 = self := by
  rw [filterByVelocity_empty]

/-- C14. For every mode and every cluster sequence, applying `filterBySize` to
the result of `filterBySize` (each time on an empty output) returns that result
again. -/
theorem filterBySize_idempotent (K : Constants) (self : Filter) (xs : List Cluster) :
    filterBySize K self (filterBySize K self xs []) [] = filterBySize K self xs [] := by
  rw [filterBySize_eq_append K self xs [], List.nil_append, filterBySize_eq_append,
    List.nil_append, List.filter_filter]
  congr 1
  funext c
  exact Bool.and_self _

/-- C13, the code at a concrete cluster. For the car cluster centred at
`(10, 5, -1)` the populated box is `(10, 5, -1)` with extents `4, 2, 2`; that is
the local `box` of `toBox`, which the function never returns. The caller
receives the value handed back by the call, here the all-zero box. -/
theorem toBox_result_not_populated :
    clusterToBox (carAt 10 5 40) = ⟨10, 5, -1, 4, 2, 2⟩
      ∧ toBox zeroBox (carAt 10 5 40) = zeroBox
      ∧ toBox zeroBox (carAt 10 5 40) ≠ clusterToBox (carAt 10 5 40) := by
  refine ⟨?_, rfl, ?_⟩
  · norm_num [clusterToBox, carAt]
  · norm_num [toBox, zeroBox, clusterToBox, carAt]

/-- C17. For a track that is not confirmed-and-valid whose confirmation timer is
running (`initStartTime_ >= 0`), a frame with a non-empty candidate list none
of which passes the velocity gate sets `initStartTime_` to `-1`, leaves every
other member unchanged, and outputs the dead-reckoned box (`prevBox_` moved by
`prevVel_ * (now - prevTime_)` in `px`, `py`) when `initialized_` is true and
nothing when it is false. -/
theorem filterByVelocity_confirmation_failure (ret : Box) (sel : Cluster) (self : Filter)
    (input : List Cluster) (tsSec tsNsec : Int)
    (hv : self.initialized_ = false ∨ self.valid_ = false)
    (ht : 0 ≤ self.initStartTime_) (hin : input ≠ [])
    (hnone : ∀ c ∈ input, gate self (toTime tsSec tsNsec) c = false) :
    filterByVelocity ret sel self input tsSec tsNsec []
      = ({ self with initStartTime_ := -1 },
          if self.initialized_ = true then
            [{ px := self.prevBox_.px + self.prevVel_.x * (toTime tsSec tsNsec - self.prevTime_),
               py := self.prevBox_.py + self.prevVel_.y * (toTime tsSec tsNsec - self.prevTime_),
               pz := self.prevBox_.pz, width := self.prevBox_.width,
               height := self.prevBox_.height, depth := self.prevBox_.depth }]
          else []) := by
  rw [filterByVelocity_confirm_none ret sel self input tsSec tsNsec [] hin hv (not_lt.mpr ht)
    ((gateLoop_eq_nil_iff self _ input).mpr hnone)]
  by_cases h : self.initialized_ = true
  · simp [h, predict]
  · simp [h]

/-- Witness of C17: the seeded car filter (timer running since `0`, not
initialized) receives at time `1` one candidate that fails the gate; the timer
is cleared and nothing is emitted. -/
theorem filterByVelocity_confirmation_failure_witness :
    filterByVelocity zeroBox zeroCluster seededCar [carAt (201 / 2) 100 40] 1 0 []
      = ({ seededCar with initStartTime_ := -1 },
          if seededCar.initialized_ = true then
            [{ px := seededCar.prevBox_.px
                      + seededCar.prevVel_.x * (toTime 1 0 - seededCar.prevTime_),
               py := seededCar.prevBox_.py
                      + seededCar.prevVel_.y * (toTime 1 0 - seededCar.prevTime_),
               pz := seededCar.prevBox_.pz, width := seededCar.prevBox_.width,
               height := seededCar.prevBox_.height, depth := seededCar.prevBox_.depth }]
          else []) :=
  filterByVelocity_confirmation_failure zeroBox zeroCluster seededCar [carAt (201 / 2) 100 40] 1 0
    (Or.inl (by simp [seededCar_eq])) (by norm_num [seededCar_eq]) (List.cons_ne_nil _ _)
    (by
      intro c hc
      rw [List.mem_singleton.mp hc]
      norm_num [seededCar_eq, gate, velocity, normLt, carAt, zeroCluster, toTime_values])

/-! ## Invariants -/

theorem filterByVelocity_initialized_one_box (ret : Box) (sel : Cluster) (self : Filter)
    (input : List Cluster) (tsSec tsNsec : Int) (output : List Box)
    (hi : self.initialized_ = true) :
    (filterByVelocity ret sel self input tsSec tsNsec output).1.initialized_ = true
      ∧ (filterByVelocity ret sel self input tsSec tsNsec output).2.length = output.length + 1 := by
  refine filterByVelocity_elim ret sel self input tsSec tsNsec output
    (fun r => r.1.initialized_ = true ∧ r.2.length = output.length + 1)
    ?_ ?_ ?_ ?_ ?_ ?_ ?_ ?_ ?_
  · intro _
    simp [hi]
  · intro _ _ _
    exact ⟨hi, by simp⟩
  · intro _ _ _ _
    simp [hi]
  · intro _ _ _ _
    refine ⟨?_, by simp⟩
    split_ifs
    · rfl
    · exact hi
  · intro _ _ _ _
    exact ⟨hi, by simp⟩
  · intro _ _ _ _ _
    exact ⟨hi, by simp⟩
  · intro _ _ _ _ _ _
    exact ⟨hi, by simp⟩
  · intro _ _ _ _ _ _ _
    exact ⟨hi, by simp⟩
  · intro _ _ _ _ _ _ _
    exact ⟨hi, by simp⟩

theorem run_initialized (self : Filter) (frames : List Frame)
    (hi : self.initialized_ = true) : (run self frames).initialized_ = true := by
  induction frames generalizing self with
  | nil => exact hi
  | cons fr rest ih =>
    exact ih (step self fr)
      (filterByVelocity_initialized_one_box fr.ret fr.sel self fr.input fr.tsSec fr.tsNsec [] hi).1

/-- C20. For every state with `initialized_ = true` and every candidate
sequence and timestamp, one call of `filterByVelocity` on an empty output
leaves `initialized_` true and puts exactly one box in the output; hence from
such a state on, after any further frames, `initialized_` is still true and the
next frame again produces exactly one box. -/
theorem initialized_is_permanent (ret : Box) (sel : Cluster) (self : Filter) (input : List Cluster)
    (tsSec tsNsec : Int) (hi : self.initialized_ = true) :
    ((filterByVelocity ret sel self input tsSec tsNsec []).1.initialized_ = true
        ∧ (filterByVelocity ret sel self input tsSec tsNsec []).2.length = 1)
      ∧ ∀ (frames : List Frame) (fr : Frame),
          (run self frames).initialized_ = true
            ∧ (filterByVelocity fr.ret fr.sel (run self frames) fr.input fr.tsSec fr.tsNsec []).2.length
                = 1 := by
  refine ⟨?_, ?_⟩
  · have h := filterByVelocity_initialized_one_box ret sel self input tsSec tsNsec [] hi
    exact ⟨h.1, by simpa using h.2⟩
  · intro frames fr
    have hr := run_initialized self frames hi
    have h := filterByVelocity_initialized_one_box fr.ret fr.sel (run self frames) fr.input
      fr.tsSec fr.tsNsec [] hr
    exact ⟨hr, by simpa using h.2⟩

/-- Witness of C20: the coasting car track is initialized; on the frame that
demotes it, `initialized_` stays true and one box is output. -/
theorem initialized_is_permanent_witness :
    (filterByVelocity zeroBox zeroCluster coastingCar [carAt 1000 0 50] 2 0 []).1.initialized_ = true
      ∧ (filterByVelocity zeroBox zeroCluster coastingCar [carAt 1000 0 50] 2 0 []).2.length = 1 :=
  (initialized_is_permanent zeroBox zeroCluster coastingCar [carAt 1000 0 50] 2 0 rfl).1

theorem filterByVelocity_valid_initialized (ret : Box) (sel : Cluster) (self : Filter)
    (input : List Cluster) (tsSec tsNsec : Int) (output : List Box)
    (hinv : self.valid_ = true → self.initialized_ = true) :
    (filterByVelocity ret sel self input tsSec tsNsec output).1.valid_ = true →
      (filterByVelocity ret sel self input tsSec tsNsec output).1.initialized_ = true := by
  refine filterByVelocity_elim ret sel self input tsSec tsNsec output
    (fun r => r.1.valid_ = true → r.1.initialized_ = true)
    ?_ ?_ ?_ ?_ ?_ ?_ ?_ ?_ ?_
  · intro _
    exact hinv
  · intro _ _ _
    exact hinv
  · intro _ _ _ _
    exact hinv
  · intro _ _ _ _
    split_ifs
    · intro _; rfl
    · exact hinv
  · intro _ hi _ _ _
    exact hi
  · intro _ hi _ _ _ _
    exact hi
  · intro _ hi _ _ _ _ _
    exact hi
  · intro _ hi _ _ _ _ _ _
    exact hi
  · intro _ hi _ _ _ _ _ _
    exact hi

theorem run_valid_initialized (self : Filter) (frames : List Frame)
    (hinv : self.valid_ = true → self.initialized_ = true) :
    (run self frames).valid_ = true → (run self frames).initialized_ = true := by
  induction frames generalizing self with
  | nil => exact hinv
  | cons fr rest ih =>
    exact ih (step self fr)
      (filterByVelocity_valid_initialized fr.ret fr.sel self fr.input fr.tsSec fr.tsNsec [] hinv)

theorem construct_flags (K : Constants) (mode : String) (raw : Filter) :
    (Filter.construct K mode raw).initialized_ = false
      ∧ (Filter.construct K mode raw).valid_ = false
      ∧ (Filter.construct K mode raw).initStartTime_ = -1
      ∧ (Filter.construct K mode raw).resetStartTime_ = -1 := by
  simp only [Filter.construct, and_self]

/-- C11. The invariant `valid_ => initialized_` holds in the state the
constructor produces, is preserved by every call of `filterByVelocity` (every
candidate sequence, timestamp, output and values handed back by `toBox` and
`selectCluster`), and so holds after every sequence of frames applied to a
freshly constructed filter. -/
theorem valid_implies_initialized (K : Constants) (mode : String) (raw : Filter) :
    ((Filter.construct K mode raw).valid_ = true →
        (Filter.construct K mode raw).initialized_ = true)
      ∧ (∀ (ret : Box) (sel : Cluster) (self : Filter) (input : List Cluster) (tsSec tsNsec : Int)
            (output : List Box),
          (self.valid_ = true → self.initialized_ = true) →
          (filterByVelocity ret sel self input tsSec tsNsec output).1.valid_ = true →
          (filterByVelocity ret sel self input tsSec tsNsec output).1.initialized_ = true)
      ∧ ∀ frames : List Frame,
          (run (Filter.construct K mode raw) frames).valid_ = true →
          (run (Filter.construct K mode raw) frames).initialized_ = true := by
  have h0 : (Filter.construct K mode raw).valid_ = true →
      (Filter.construct K mode raw).initialized_ = true := by
    intro h
    rw [(construct_flags K mode raw).2.1] at h
    exact Bool.noConfusion h
  exact ⟨h0, fun ret sel self input tsSec tsNsec output =>
      filterByVelocity_valid_initialized ret sel self input tsSec tsNsec output,
    fun frames => run_valid_initialized _ frames h0⟩

theorem filterByVelocity_timers (ret : Box) (sel : Cluster) (self : Filter)
    (input : List Cluster) (tsSec tsNsec : Int) (output : List Box)
    (h1 : self.valid_ = true → self.initialized_ = true)
    (h2 : self.valid_ = true → self.initStartTime_ < 0)
    (h3 : self.valid_ = false → self.resetStartTime_ < 0) :
    ((filterByVelocity ret sel self input tsSec tsNsec output).1.valid_ = true →
        (filterByVelocity ret sel self input tsSec tsNsec output).1.initialized_ = true)
      ∧ ((filterByVelocity ret sel self input tsSec tsNsec output).1.valid_ = true →
        (filterByVelocity ret sel self input tsSec tsNsec output).1.initStartTime_ < 0)
      ∧ ((filterByVelocity ret sel self input tsSec tsNsec output).1.valid_ = false →
        (filterByVelocity ret sel self input tsSec tsNsec output).1.resetStartTime_ < 0) := by
  have hnv : (self.initialized_ = false ∨ self.valid_ = false) → self.valid_ = false := by
    intro hv
    rcases hv with h | h
    · cases hva : self.valid_
      · rfl
      · rw [h1 hva] at h
        exact Bool.noConfusion h
    · exact h
  have hneg : (-1 : ℚ) < 0 := by norm_num
  refine filterByVelocity_elim ret sel self input tsSec tsNsec output
    (fun r => (r.1.valid_ = true → r.1.initialized_ = true)
      ∧ (r.1.valid_ = true → r.1.initStartTime_ < 0)
      ∧ (r.1.valid_ = false → r.1.resetStartTime_ < 0))
    ?_ ?_ ?_ ?_ ?_ ?_ ?_ ?_ ?_
  · intro _
    exact ⟨h1, h2, h3⟩
  · intro _ hv _
    have hf := hnv hv
    refine ⟨h1, ?_, h3⟩
    intro ht
    exact absurd (hf ▸ ht : false = true) Bool.false_ne_true
  · intro _ hv _ _
    exact ⟨h1, fun _ => hneg, h3⟩
  · intro _ hv _ _
    have hf := hnv hv
    split_ifs
    · exact ⟨fun _ => rfl, fun _ => hneg, fun h => by simp at h⟩
    · refine ⟨h1, ?_, h3⟩
      intro ht
      exact absurd (hf ▸ ht : false = true) Bool.false_ne_true
  · intro _ hi hva _
    refine ⟨fun _ => hi, fun _ => hneg, ?_⟩
    intro h
    exact absurd (hva ▸ h : true = false) (by decide)
  · intro _ hi hva _ _
    refine ⟨fun _ => hi, h2, ?_⟩
    intro h
    exact absurd (hva ▸ h : true = false) (by decide)
  · intro _ _ _ _ _ _
    exact ⟨h1, h2, h3⟩
  · intro _ hi _ _ _ _ _
    exact ⟨fun _ => hi, fun h => Bool.noConfusion h, fun _ => hneg⟩
  · intro _ hi _ _ _ _ _
    exact ⟨fun _ => hi, fun _ => hneg, fun _ => hneg⟩

theorem run_timers (self : Filter) (frames : List Frame)
    (h1 : self.valid_ = true → self.initialized_ = true)
    (h2 : self.valid_ = true → self.initStartTime_ < 0)
    (h3 : self.valid_ = false → self.resetStartTime_ < 0) :
    ((run self frames).valid_ = true → (run self frames).initialized_ = true)
      ∧ ((run self frames).valid_ = true → (run self frames).initStartTime_ < 0)
      ∧ ((run self frames).valid_ = false → (run self frames).resetStartTime_ < 0) := by
  induction frames generalizing self with
  | nil => exact ⟨h1, h2, h3⟩
  | cons fr rest ih =>
    have h := filterByVelocity_timers fr.ret fr.sel self fr.input fr.tsSec fr.tsNsec [] h1 h2 h3
    exact ih (step self fr) h.1 h.2.1 h.2.2

theorem run_construct_timers (K : Constants) (mode : String) (raw : Filter)
    (frames : List Frame) :
    ((run (Filter.construct K mode raw) frames).valid_ = true →
        (run (Filter.construct K mode raw) frames).initialized_ = true)
      ∧ ((run (Filter.construct K mode raw) frames).valid_ = true →
        (run (Filter.construct K mode raw) frames).initStartTime_ < 0)
      ∧ ((run (Filter.construct K mode raw) frames).valid_ = false →
        (run (Filter.construct K mode raw) frames).resetStartTime_ < 0) := by
  have hc := construct_flags K mode raw
  refine run_timers _ frames ?_ ?_ ?_
  · intro h
    rw [hc.2.1] at h
    exact Bool.noConfusion h
  · intro h
    rw [hc.2.1] at h
    exact Bool.noConfusion h
  · intro _
    rw [hc.2.2.2]
    norm_num

/-- C12. In every state reached from a freshly constructed filter by any
sequence of `filterByVelocity` calls (any candidates, timestamps and values
handed back by `toBox` and `selectCluster`), `initStartTime_` and
`resetStartTime_` are not both
`>= 0`: a valid track has `initStartTime_ < 0` and a track that is not valid has
`resetStartTime_ < 0`. -/
theorem timers_exclusive (K : Constants) (mode : String) (raw : Filter)
    (frames : List Frame) :
    ¬ (0 ≤ (run (Filter.construct K mode raw) frames).initStartTime_
        ∧ 0 ≤ (run (Filter.construct K mode raw) frames).resetStartTime_) := by
  have h := run_construct_timers K mode raw frames
  rintro ⟨hi, hr⟩
  cases hva : (run (Filter.construct K mode raw) frames).valid_
  · exact absurd (h.2.2 hva) (not_lt.mpr hr)
  · exact absurd (h.2.1 hva) (not_lt.mpr hi)

/-! ## A concrete track: promotion, hold, loss -/

theorem gateLoop_singleton_pass (self : Filter) (time : ℚ) (c : Cluster)
    (hg : gate self time c = true) : gateLoop self time [c] [] = [c] := by
  simp [gateLoop, hg]

theorem gateLoop_singleton_fail (self : Filter) (time : ℚ) (c : Cluster)
    (hg : gate self time c = false) : gateLoop self time [c] [] = [] := by
  simp [gateLoop, hg]

theorem filterByVelocity_confirm_single (ret : Box) (sel : Cluster) (self : Filter) (c : Cluster)
    (tsSec tsNsec : Int) (output : List Box)
    (hv : self.initialized_ = false ∨ self.valid_ = false) (ht : ¬ self.initStartTime_ < 0)
    (hg : gate self (toTime tsSec tsNsec) c = true) :
    filterByVelocity ret sel self [c] tsSec tsNsec output
      = (if toTime tsSec tsNsec - self.initStartTime_ > self.initTime_ then
            { self with
                prevVel_ := velocity self ⟨c.center.x, c.center.y⟩ (toTime tsSec tsNsec),
                prevTime_ := toTime tsSec tsNsec, prevBox_ := toBox ret c,
                initialized_ := true, valid_ := true, initStartTime_ := -1 }
          else
            { self with
                prevVel_ := velocity self ⟨c.center.x, c.center.y⟩ (toTime tsSec tsNsec),
                prevTime_ := toTime tsSec tsNsec, prevBox_ := toBox ret c },
          output ++ [toBox ret c]) := by
  have hloop := gateLoop_singleton_pass self (toTime tsSec tsNsec) c hg
  have hne : gateLoop self (toTime tsSec tsNsec) [c] [] ≠ [] := by
    rw [hloop]; exact List.cons_ne_nil _ _
  have hcur : pickCurrent sel (gateLoop self (toTime tsSec tsNsec) [c] []) hne = c := by
    simp [hloop, pickCurrent]
  rw [filterByVelocity_confirm_found ret sel self [c] tsSec tsNsec output (List.cons_ne_nil _ _)
    hv ht hne, hcur]

theorem filterByVelocity_track_single (ret : Box) (sel : Cluster) (self : Filter) (c : Cluster)
    (tsSec tsNsec : Int) (output : List Box)
    (hi : self.initialized_ = true) (hva : self.valid_ = true)
    (hg : gate self (toTime tsSec tsNsec) c = true) :
    filterByVelocity ret sel self [c] tsSec tsNsec output
      = ({ self with
              prevVel_ := velocity self ⟨c.center.x, c.center.y⟩ (toTime tsSec tsNsec),
              prevTime_ := toTime tsSec tsNsec, prevBox_ := toBox ret c,
              initStartTime_ := -1, resetStartTime_ := -1 },
          output ++ [toBox ret c]) := by
  have hloop := gateLoop_singleton_pass self (toTime tsSec tsNsec) c hg
  have hne : gateLoop self (toTime tsSec tsNsec) [c] [] ≠ [] := by
    rw [hloop]; exact List.cons_ne_nil _ _
  have hcur : pickCurrent sel (gateLoop self (toTime tsSec tsNsec) [c] []) hne = c := by
    simp [hloop, pickCurrent]
  rw [filterByVelocity_track_found ret sel self [c] tsSec tsNsec output (List.cons_ne_nil _ _)
    hi hva hne, hcur]

theorem trackingCar_eq :
    trackingCar =
      { mode_ := "car", speedLimit_ := 30, initTime_ := 1, resetTime_ := 1,
        initStartTime_ := -1, resetStartTime_ := -1, initialized_ := true, valid_ := true,
        prevTime_ := 2, prevVel_ := ⟨4 / 3, 0⟩, prevBox_ := clusterToBox (carAt 2 0 40),
        prevCluster_ := zeroCluster } := by
  show (filterByVelocity (clusterToBox (carAt 2 0 40)) (carAt 2 0 40)
    (step (step freshCar (frameOf (carAt 0 0 40) 0 0)) (frameOf (carAt 1 0 40) 0 500000000))
    [carAt 2 0 40] 2 0 []).1 = _
  rw [filterByVelocity_confirm_single _ _ _ _ _ _ _
    (Or.inl (by simp [step_freshCar_second])) (by norm_num [step_freshCar_second])
    gate_after_second, step_freshCar_second]
  norm_num [toBox, velocity, carAt, zeroCluster, toTime_values]

theorem gate_lost :
    gate trackingCar (toTime 3 0) (carAt 1000 0 50) = false := by
  rw [trackingCar_eq]
  norm_num [gate, velocity, normLt, carAt, zeroCluster, toTime_values]

theorem lostCar_eq :
    lostCar =
      { mode_ := "car", speedLimit_ := 30, initTime_ := 1, resetTime_ := 1,
        initStartTime_ := -1, resetStartTime_ := 3, initialized_ := true, valid_ := true,
        prevTime_ := 2, prevVel_ := ⟨4 / 3, 0⟩, prevBox_ := clusterToBox (carAt 2 0 40),
        prevCluster_ := zeroCluster } := by
  show (filterByVelocity (clusterToBox (carAt 1000 0 50)) (carAt 1000 0 50) trackingCar
    [carAt 1000 0 50] 3 0 []).1 = _
  rw [filterByVelocity_track_none_start _ _ _ _ _ _ _ (List.cons_ne_nil _ _)
    (by simp [trackingCar_eq]) (by simp [trackingCar_eq])
    (gateLoop_singleton_fail _ _ _ gate_lost) (by norm_num [trackingCar_eq]),
    trackingCar_eq]
  norm_num [toTime_values]

/-- Witness of C11: the car filter fed three consistent frames is valid, and
it is initialized. -/
theorem valid_implies_initialized_witness :
    trackingCar.valid_ = true ∧ trackingCar.initialized_ = true :=
  ⟨by simp [trackingCar_eq],
   (valid_implies_initialized K0 "car" (idleFilter "" 0 0 0)).2.2
     [frameOf (carAt 0 0 40) 0 0, frameOf (carAt 1 0 40) 0 500000000,
       frameOf (carAt 2 0 40) 2 0]
     (by
      show trackingCar.valid_ = true
      simp [trackingCar_eq])⟩

/-- C16, the code at a concrete frame. The car filter, confirmed and valid
after three frames, receives at time `3` one candidate centred at `(3, 0)`,
which passes the gate. The timers, `prevVel_` and `prevTime_` are set as the
claim says, but the box put in the output and in `prevBox_` is the value handed
back by `toBox`, here the all-zero box, not the box of the candidate. -/
theorem filterByVelocity_hold_box_from_toBox_result :
    trackingCar.initialized_ = true ∧ trackingCar.valid_ = true
      ∧ gate trackingCar (toTime 3 0) (carAt 3 0 40) = true
      ∧ filterByVelocity zeroBox zeroCluster trackingCar [carAt 3 0 40] 3 0 []
          = ({ trackingCar with prevVel_ := ⟨3, 0⟩, prevTime_ := 3, prevBox_ := zeroBox,
                                initStartTime_ := -1, resetStartTime_ := -1 }, [zeroBox])
      ∧ zeroBox ≠ clusterToBox (carAt 3 0 40) := by
  have hg : gate trackingCar (toTime 3 0) (carAt 3 0 40) = true := by
    rw [trackingCar_eq]
    norm_num [gate, velocity, normLt, carAt, zeroCluster, toTime_values]
  refine ⟨by simp [trackingCar_eq], by simp [trackingCar_eq], hg, ?_, ?_⟩
  · rw [filterByVelocity_track_single _ _ _ _ _ _ _ (by simp [trackingCar_eq, toTime_values])
      (by simp [trackingCar_eq]) hg, trackingCar_eq]
    norm_num [toBox, velocity, carAt, zeroCluster, toTime_values]
  · norm_num [zeroBox, clusterToBox, carAt]

/-- C15, the code at a concrete frame. The car filter, confirmed after three
frames and coasting since time `3`, receives at time `5` one candidate that
fails the gate, with `5 - 3 > resetTime_ = 1`. The nested call takes the seed
branch and the state after the frame has `valid_ = false`, `initialized_ =
true`, `resetStartTime_ = -1`, `initStartTime_ = 5`, `prevVel_ = (0, 0)`,
`prevTime_ = 5`, as claimed; but `prevBox_` is the value handed back by `toBox`,
here the all-zero box, not the box of the candidate. -/
theorem filterByVelocity_reseed_box_from_toBox_result :
    lostCar.initialized_ = true ∧ lostCar.valid_ = true ∧ lostCar.resetStartTime_ = 3
      ∧ gate lostCar (toTime 5 0) (carAt 1000 0 50) = false
      ∧ (filterByVelocity zeroBox zeroCluster lostCar [carAt 1000 0 50] 5 0 []).1
          = { lostCar with valid_ := false, resetStartTime_ := -1, prevVel_ := ⟨0, 0⟩,
                           prevTime_ := 5, prevBox_ := zeroBox, initStartTime_ := 5 }
      ∧ zeroBox ≠ clusterToBox (carAt 1000 0 50) := by
  have hg : gate lostCar (toTime 5 0) (carAt 1000 0 50) = false := by
    rw [lostCar_eq]
    norm_num [gate, velocity, normLt, carAt, zeroCluster, toTime_values]
  refine ⟨by simp [lostCar_eq], by simp [lostCar_eq], by simp [lostCar_eq], hg, ?_, ?_⟩
  · rw [filterByVelocity_demote_seed _ _ _ _ _ _ _ (List.cons_ne_nil _ _)
      (by simp [lostCar_eq]) (by simp [lostCar_eq])
      (gateLoop_singleton_fail _ _ _ hg) (by norm_num [lostCar_eq])
      (by norm_num [lostCar_eq, toTime_values]) (by norm_num [lostCar_eq]), lostCar_eq]
    norm_num [toBox, toTime_values]
  · norm_num [zeroBox, clusterToBox, carAt]

/-! ## Elapsed time at the calls of `velocity` -/

theorem velocityDivisors_not_valid (self : Filter) (input : List Cluster)
    (tsSec tsNsec : Int) (hv : self.initialized_ = false ∨ self.valid_ = false) :
    velocityDivisors self input tsSec tsNsec
      = if input = [] then []
        else if self.initStartTime_ < 0 then []
        else input.map (fun _ => toTime tsSec tsNsec - self.prevTime_)
          ++ (if gateLoop self (toTime tsSec tsNsec) input [] = [] then []
              else [toTime tsSec tsNsec - self.prevTime_]) := by
  unfold velocityDivisors
  have hv2 : (!self.initialized_ || !self.valid_) = true := by
    rcases hv with h | h <;> simp [h]
  simp only [dif_pos hv2]

theorem velocityDivisors_valid (self : Filter) (input : List Cluster)
    (tsSec tsNsec : Int) (hi : self.initialized_ = true) (hva : self.valid_ = true) :
    velocityDivisors self input tsSec tsNsec
      = if input = [] then []
        else input.map (fun _ => toTime tsSec tsNsec - self.prevTime_)
          ++ (if gateLoop self (toTime tsSec tsNsec) input [] = [] then
                if self.resetStartTime_ < 0 then []
                else if toTime tsSec tsNsec - self.resetStartTime_ > self.resetTime_ then
                  velocityDivisors { self with valid_ := false, resetStartTime_ := -1 }
                    input tsSec tsNsec
                else []
              else [toTime tsSec tsNsec - self.prevTime_]) := by
  conv_lhs => unfold velocityDivisors
  have hv2 : ¬ (!self.initialized_ || !self.valid_) = true := by simp [hi, hva]
  simp only [dif_neg hv2]

theorem velocityDivisors_not_valid_mem (self : Filter) (input : List Cluster)
    (tsSec tsNsec : Int) (hv : self.initialized_ = false ∨ self.valid_ = false) (d : ℚ)
    (hd : d ∈ velocityDivisors self input tsSec tsNsec) :
    d = toTime tsSec tsNsec - self.prevTime_ ∧ ¬ self.initStartTime_ < 0 := by
  rw [velocityDivisors_not_valid self input tsSec tsNsec hv] at hd
  split_ifs at hd with h1 h2 h3
  · exact absurd hd (List.not_mem_nil _)
  · exact absurd hd (List.not_mem_nil _)
  · rw [List.append_nil, List.mem_map] at hd
    obtain ⟨_, _, rfl⟩ := hd
    exact ⟨rfl, h2⟩
  · rcases List.mem_append.mp hd with h | h
    · obtain ⟨_, _, rfl⟩ := List.mem_map.mp h
      exact ⟨rfl, h2⟩
    · exact ⟨List.mem_singleton.mp h, h2⟩

/-- Every divisor used during one call is the time elapsed since `prevTime_`
as it is when the call starts, and a call that divides at all either has the
confirmation timer running or runs on a valid track. -/
theorem velocityDivisors_mem (self : Filter) (input : List Cluster)
    (tsSec tsNsec : Int) (d : ℚ) (hd : d ∈ velocityDivisors self input tsSec tsNsec) :
    d = toTime tsSec tsNsec - self.prevTime_
      ∧ (¬ self.initStartTime_ < 0 ∨ self.valid_ = true) := by
  by_cases hv : self.initialized_ = false ∨ self.valid_ = false
  · have h := velocityDivisors_not_valid_mem self input tsSec tsNsec hv d hd
    exact ⟨h.1, Or.inl h.2⟩
  · obtain ⟨hi, hva⟩ := flags_true_of_not_or self hv
    refine ⟨?_, Or.inr hva⟩
    rw [velocityDivisors_valid self input tsSec tsNsec hi hva] at hd
    split_ifs at hd with h1 h2 h3 h4
    · exact absurd hd (List.not_mem_nil _)
    · rw [List.append_nil, List.mem_map] at hd
      obtain ⟨_, _, rfl⟩ := hd
      rfl
    · rcases List.mem_append.mp hd with h | h
      · obtain ⟨_, _, rfl⟩ := List.mem_map.mp h
        rfl
      · exact (velocityDivisors_not_valid_mem
          { self with valid_ := false, resetStartTime_ := -1 } input tsSec tsNsec
          (Or.inr rfl) d h).1
    · rw [List.append_nil, List.mem_map] at hd
      obtain ⟨_, _, rfl⟩ := hd
      rfl
    · rcases List.mem_append.mp hd with h | h
      · obtain ⟨_, _, rfl⟩ := List.mem_map.mp h
        rfl
      · exact List.mem_singleton.mp h

theorem step_prevTime_seeded (self : Filter) (fr : Frame) (pre : List Frame)
    (hJ : (¬ self.initStartTime_ < 0 ∨ self.valid_ = true) →
      ∃ x ∈ pre, x.input ≠ [] ∧ self.prevTime_ = x.time) :
    (¬ (step self fr).initStartTime_ < 0 ∨ (step self fr).valid_ = true) →
      ∃ x ∈ pre ++ [fr], x.input ≠ [] ∧ (step self fr).prevTime_ = x.time := by
  have hneg : (-1 : ℚ) < 0 := by norm_num
  have hold : (¬ self.initStartTime_ < 0 ∨ self.valid_ = true) →
      ∃ x ∈ pre ++ [fr], x.input ≠ [] ∧ self.prevTime_ = x.time := by
    intro h
    obtain ⟨x, hx, hne, ht⟩ := hJ h
    exact ⟨x, List.mem_append_left _ hx, hne, ht⟩
  have hnew : ∀ t : ℚ, fr.input ≠ [] → t = fr.time →
      ∃ x ∈ pre ++ [fr], x.input ≠ [] ∧ t = x.time := by
    intro t hne ht
    exact ⟨fr, List.mem_append_right _ (List.mem_singleton.mpr rfl), hne, ht⟩
  unfold step
  refine filterByVelocity_elim fr.ret fr.sel self fr.input fr.tsSec fr.tsNsec []
    (fun r => (¬ r.1.initStartTime_ < 0 ∨ r.1.valid_ = true) →
      ∃ x ∈ pre ++ [fr], x.input ≠ [] ∧ r.1.prevTime_ = x.time)
    ?_ ?_ ?_ ?_ ?_ ?_ ?_ ?_ ?_
  · intro _
    exact hold
  · intro hin _ _ _
    exact hnew _ hin rfl
  · intro _ _ _ _ h
    rcases h with h | h
    · exact absurd hneg h
    · exact hold (Or.inr h)
  · intro hin _ _ _
    split_ifs
    · intro _
      exact hnew _ hin rfl
    · intro _
      exact hnew _ hin rfl
  · intro hin _ _ _ _
    exact hnew _ hin rfl
  · intro _ _ hva _ _ _
    exact hold (Or.inr hva)
  · intro _ _ hva _ _ _ _
    exact hold (Or.inr hva)
  · intro hin _ _ _ _ _ _ _
    exact hnew _ hin rfl
  · intro _ _ _ _ _ _ _ h
    rcases h with h | h
    · exact absurd hneg h
    · exact Bool.noConfusion h

theorem run_prevTime_seeded (frames : List Frame) (self : Filter) (pre : List Frame)
    (hJ : (¬ self.initStartTime_ < 0 ∨ self.valid_ = true) →
      ∃ x ∈ pre, x.input ≠ [] ∧ self.prevTime_ = x.time) :
    (¬ (run self frames).initStartTime_ < 0 ∨ (run self frames).valid_ = true) →
      ∃ x ∈ pre ++ frames, x.input ≠ [] ∧ (run self frames).prevTime_ = x.time := by
  induction frames generalizing self pre with
  | nil =>
    rw [List.append_nil]
    exact hJ
  | cons fr rest ih =>
    have h := ih (step self fr) (pre ++ [fr]) (step_prevTime_seeded self fr pre hJ)
    rw [List.append_assoc] at h
    exact h

theorem run_empty_inputs (self : Filter) (frames : List Frame)
    (hall : ∀ x ∈ frames, x.input = []) : run self frames = self := by
  induction frames generalizing self with
  | nil => rfl
  | cons fr rest ih =>
    have hfr : fr.input = [] := hall fr (List.mem_cons_self _ _)
    have hstep : step self fr = self := by
      rw [step, hfr, filterByVelocity_empty]
    show run (step self fr) rest = self
    rw [hstep]
    exact ih self (fun x hx => hall x (List.mem_cons_of_mem _ hx))

theorem run_construct_prevTime_seeded (K : Constants) (mode : String) (raw : Filter)
    (pre : List Frame) :
    (¬ (run (Filter.construct K mode raw) pre).initStartTime_ < 0
        ∨ (run (Filter.construct K mode raw) pre).valid_ = true) →
      ∃ x ∈ pre, x.input ≠ []
        ∧ (run (Filter.construct K mode raw) pre).prevTime_ = x.time := by
  have hc := construct_flags K mode raw
  have h := run_prevTime_seeded pre (Filter.construct K mode raw) [] (by
    intro h
    rcases h with h | h
    · rw [hc.2.2.1] at h
      exact absurd (by norm_num : (-1 : ℚ) < 0) h
    · rw [hc.2.1] at h
      exact Bool.noConfusion h)
  rw [List.nil_append] at h
  exact h

/-! ## The log of the calls of `velocity` -/

/-- The value of `velocityLogged` is that of `velocity`, and the logged number
is the divisor of both quotients of `velocity`. -/
theorem velocityLogged_spec (self : Filter) (pos : Vector2) (time : ℚ) :
    (velocityLogged self pos time).1 = velocity self pos time
      ∧ velocity self pos time
          = ⟨(pos.x - self.prevCluster_.center.x) / (velocityLogged self pos time).2,
             (pos.y - self.prevCluster_.center.y) / (velocityLogged self pos time).2⟩ :=
  ⟨rfl, rfl⟩

theorem gateLogged_eq (self : Filter) (time : ℚ) (it : Cluster) :
    gateLogged self time it = (gate self time it, time - self.prevTime_) := rfl

theorem gateLoopLogged_eq (self : Filter) (time : ℚ) (input found : List Cluster)
    (log : List ℚ) :
    gateLoopLogged self time input found log
      = (gateLoop self time input found,
          log ++ input.map (fun _ => time - self.prevTime_)) := by
  induction input generalizing found log with
  | nil => simp [gateLoopLogged, gateLoop]
  | cons it rest ih =>
    by_cases h : gate self time it = true
    · simp [gateLoopLogged, gateLoop, gateLogged_eq, h, ih]
    · simp [gateLoopLogged, gateLoop, gateLogged_eq, h, ih]

theorem filterByVelocityLogged_not_valid (ret : Box) (sel : Cluster) (self : Filter)
    (input : List Cluster) (tsSec tsNsec : Int) (output : List Box)
    (hv : self.initialized_ = false ∨ self.valid_ = false) :
    filterByVelocityLogged ret sel self input tsSec tsNsec output
      = (filterByVelocity ret sel self input tsSec tsNsec output,
          velocityDivisors self input tsSec tsNsec) := by
  have hv2 : (!self.initialized_ || !self.valid_) = true := by
    rcases hv with h | h <;> simp [h]
  unfold filterByVelocityLogged filterByVelocity velocityDivisors
  simp only [dif_pos hv2, gateLoopLogged_eq, List.nil_append, velocityLogged]
  by_cases hin : input = []
  · simp only [dif_pos hin, if_pos hin]
    split_ifs <;> rfl
  · simp only [dif_neg hin, if_neg hin]
    by_cases ht : self.initStartTime_ < 0
    · simp only [if_pos ht]
    · simp only [if_neg ht]
      by_cases hf : gateLoop self (toTime tsSec tsNsec) input [] = []
      · simp only [dif_pos hf, if_pos hf, List.append_nil]
        split_ifs <;> rfl
      · simp only [dif_neg hf, if_neg hf]
        split_ifs <;> rfl

/-- Dropping the log of `filterByVelocityLogged` gives `filterByVelocity`, and
the log is `velocityDivisors`. -/
theorem filterByVelocityLogged_eq (ret : Box) (sel : Cluster) (self : Filter)
    (input : List Cluster) (tsSec tsNsec : Int) (output : List Box) :
    filterByVelocityLogged ret sel self input tsSec tsNsec output
      = (filterByVelocity ret sel self input tsSec tsNsec output,
          velocityDivisors self input tsSec tsNsec) := by
  by_cases hv : self.initialized_ = false ∨ self.valid_ = false
  · exact filterByVelocityLogged_not_valid ret sel self input tsSec tsNsec output hv
  · obtain ⟨hi, hva⟩ := flags_true_of_not_or self hv
    have hv2 : ¬ (!self.initialized_ || !self.valid_) = true := by simp [hi, hva]
    have hnested := filterByVelocityLogged_not_valid ret sel
      { self with valid_ := false, resetStartTime_ := -1 } input tsSec tsNsec []
      (Or.inr rfl)
    conv_lhs => unfold filterByVelocityLogged
    conv_rhs => unfold filterByVelocity velocityDivisors
    simp only [dif_neg hv2, gateLoopLogged_eq, List.nil_append, velocityLogged, hnested]
    by_cases hin : input = []
    · simp only [dif_pos hin, if_pos hin]
      split_ifs <;> rfl
    · simp only [dif_neg hin, if_neg hin]
      by_cases hf : gateLoop self (toTime tsSec tsNsec) input [] = []
      · simp only [dif_pos hf, if_pos hf]
        split_ifs <;> simp
      · simp only [dif_neg hf, if_neg hf]

/-- The state of the car filter after a seed frame at `1500000000 s`. -/
theorem step_freshCar_epoch :
    run freshCar [frameOf (carAt 0 0 40) 1500000000 0] =
      { mode_ := "car", speedLimit_ := 30, initTime_ := 1, resetTime_ := 1,
        initStartTime_ := 1500000000, resetStartTime_ := -1, initialized_ := false,
        valid_ := false, prevTime_ := 1500000000, prevVel_ := ⟨0, 0⟩,
        prevBox_ := clusterToBox (carAt 0 0 40), prevCluster_ := zeroCluster } := by
  show (filterByVelocity (clusterToBox (carAt 0 0 40)) (carAt 0 0 40) freshCar
    [carAt 0 0 40] 1500000000 0 []).1 = _
  rw [filterByVelocity_seed _ _ _ _ _ _ _ (List.cons_ne_nil _ _)
    (Or.inl (by simp [freshCar_eq])) (by norm_num [freshCar_eq])]
  simp [freshCar_eq, toBox, pickCurrent, toTime_1500000000_0]

/-- C19, as stated, fails. A fresh car filter is seeded by a frame stamped
`(1500000000 s, 0 ns)` and then receives a frame stamped
`(1500000000 s, 100 ns)`: the timestamps are non-negative and strictly
increasing, but `toTime` gives both the same `double`, so the call of `velocity`
in the gating loop of the second frame divides by `now - prevTime_ = 0`. -/
theorem velocity_divides_by_zero_on_close_timestamps :
    Frame.before (frameOf (carAt 0 0 40) 1500000000 0) (frameOf (carAt 0 0 40) 1500000000 100)
        = true
      ∧ toTime 1500000000 100 = toTime 1500000000 0
      ∧ (filterByVelocityLogged (clusterToBox (carAt 0 0 40)) (carAt 0 0 40)
          (run freshCar [frameOf (carAt 0 0 40) 1500000000 0])
          [carAt 0 0 40] 1500000000 100 []).2 = [0] := by
  refine ⟨by decide, by rw [toTime_1500000000_100, toTime_1500000000_0], ?_⟩
  have hg : gate (run freshCar [frameOf (carAt 0 0 40) 1500000000 0])
      (toTime 1500000000 100) (carAt 0 0 40) = false := by
    rw [step_freshCar_epoch]
    simp [gate, toTime_1500000000_100]
  rw [filterByVelocityLogged_eq,
    velocityDivisors_not_valid _ _ _ _ (Or.inl (by simp [step_freshCar_epoch])),
    gateLoop_singleton_fail _ _ _ hg, step_freshCar_epoch]
  norm_num [toTime_1500000000_100]

/-- C19, amended. A freshly constructed filter is fed frames whose times, the
`double`s that `toTime` computes from the timestamps, are strictly increasing
(non-negative or not). Every call of `velocity` made while a frame is
processed, in a gating loop or when `prevVel_` is updated, the nested call
included, divides by `now - prevTime_` where `prevTime_` is the time of an
earlier frame that held candidates, so the divisor is strictly positive. In
particular a frame with candidates that comes after frames without any takes
the seed branch and makes no call of `velocity`. -/
theorem velocity_divisors_positive (K : Constants) (mode : String) (raw : Filter)
    (pre : List Frame) (fr : Frame) (post : List Frame)
    (hinc : List.Pairwise (fun a b => Frame.time a < Frame.time b) (pre ++ fr :: post)) :
    (∀ d ∈ (filterByVelocityLogged fr.ret fr.sel (run (Filter.construct K mode raw) pre)
              fr.input fr.tsSec fr.tsNsec []).2,
        0 < d ∧ d = fr.time - (run (Filter.construct K mode raw) pre).prevTime_
          ∧ ∃ x ∈ pre, x.input ≠ []
              ∧ (run (Filter.construct K mode raw) pre).prevTime_ = x.time)
      ∧ ((∀ x ∈ pre, x.input = []) →
          (filterByVelocityLogged fr.ret fr.sel (run (Filter.construct K mode raw) pre)
              fr.input fr.tsSec fr.tsNsec []).2 = []
            ∧ ∀ hin : fr.input ≠ [],
                filterByVelocity fr.ret fr.sel (run (Filter.construct K mode raw) pre) fr.input
                    fr.tsSec fr.tsNsec []
                  = ({ run (Filter.construct K mode raw) pre with
                          prevVel_ := ⟨0, 0⟩, prevTime_ := fr.time,
                          prevBox_ := toBox fr.ret (pickCurrent fr.sel fr.input hin),
                          initStartTime_ := fr.time },
                      [toBox fr.ret (pickCurrent fr.sel fr.input hin)])) := by
  rw [filterByVelocityLogged_eq]
  refine ⟨?_, ?_⟩
  · intro d hd
    obtain ⟨hdiv, hprem⟩ := velocityDivisors_mem _ fr.input fr.tsSec fr.tsNsec d hd
    obtain ⟨x, hx, hne, ht⟩ := run_construct_prevTime_seeded K mode raw pre hprem
    have hlt : x.time < fr.time :=
      (List.pairwise_append.mp hinc).2.2 x hx fr (List.mem_cons_self _ _)
    refine ⟨?_, hdiv, x, hx, hne, ht⟩
    rw [hdiv, ht]
    have : x.time < toTime fr.tsSec fr.tsNsec := hlt
    linarith
  · intro hall
    have hrun := run_empty_inputs (Filter.construct K mode raw) pre hall
    have hc := construct_flags K mode raw
    have hneg : (Filter.construct K mode raw).initStartTime_ < 0 := by
      rw [hc.2.2.1]; norm_num
    rw [hrun]
    refine ⟨?_, ?_⟩
    · show velocityDivisors _ fr.input fr.tsSec fr.tsNsec = []
      rw [velocityDivisors_not_valid _ fr.input fr.tsSec fr.tsNsec (Or.inl hc.1)]
      split_ifs <;> rfl
    · intro hin
      rw [filterByVelocity_seed fr.ret fr.sel _ fr.input fr.tsSec fr.tsNsec [] hin (Or.inl hc.1) hneg]
      rfl

theorem velocityDivisors_example :
    velocityDivisors
        (run (Filter.construct K0 "car" (idleFilter "" 0 0 0))
          [frameOf (carAt 0 0 40) 0 0, frameOf (carAt 1 0 40) 0 500000000])
        [carAt 2 0 40] 2 0
      = [3 / 2, 3 / 2] := by
  show velocityDivisors
    (step (step freshCar (frameOf (carAt 0 0 40) 0 0)) (frameOf (carAt 1 0 40) 0 500000000))
    [carAt 2 0 40] 2 0 = _
  rw [velocityDivisors_not_valid _ _ _ _ (Or.inl (by simp [step_freshCar_second])),
    gateLoop_singleton_pass _ _ _ gate_after_second, step_freshCar_second]
  norm_num [toTime_values]

theorem filterByVelocityLogged_example :
    (filterByVelocityLogged (clusterToBox (carAt 2 0 40)) (carAt 2 0 40)
        (run (Filter.construct K0 "car" (idleFilter "" 0 0 0))
          [frameOf (carAt 0 0 40) 0 0, frameOf (carAt 1 0 40) 0 500000000])
        [carAt 2 0 40] 2 0 []).2
      = [3 / 2, 3 / 2] := by
  rw [filterByVelocityLogged_eq]
  exact velocityDivisors_example

/-- Witness of C19 (amended): the car filter seeded at `0` and fed a frame at
`0.5` makes two calls of `velocity` on the frame at `2`, both dividing by
`1.5`. -/
theorem velocity_divisors_positive_witness :
    (filterByVelocityLogged (clusterToBox (carAt 2 0 40)) (carAt 2 0 40)
        (run (Filter.construct K0 "car" (idleFilter "" 0 0 0))
          [frameOf (carAt 0 0 40) 0 0, frameOf (carAt 1 0 40) 0 500000000])
        [carAt 2 0 40] 2 0 []).2
      = [3 / 2, 3 / 2]
    ∧ ∀ d ∈ (filterByVelocityLogged (frameOf (carAt 2 0 40) 2 0).ret
          (frameOf (carAt 2 0 40) 2 0).sel
          (run (Filter.construct K0 "car" (idleFilter "" 0 0 0))
            [frameOf (carAt 0 0 40) 0 0, frameOf (carAt 1 0 40) 0 500000000])
          (frameOf (carAt 2 0 40) 2 0).input (frameOf (carAt 2 0 40) 2 0).tsSec
          (frameOf (carAt 2 0 40) 2 0).tsNsec []).2,
      0 < d
        ∧ d = (frameOf (carAt 2 0 40) 2 0).time
            - (run (Filter.construct K0 "car" (idleFilter "" 0 0 0))
                [frameOf (carAt 0 0 40) 0 0, frameOf (carAt 1 0 40) 0 500000000]).prevTime_
        ∧ ∃ x ∈ [frameOf (carAt 0 0 40) 0 0, frameOf (carAt 1 0 40) 0 500000000],
            x.input ≠ []
              ∧ (run (Filter.construct K0 "car" (idleFilter "" 0 0 0))
                  [frameOf (carAt 0 0 40) 0 0, frameOf (carAt 1 0 40) 0 500000000]).prevTime_
                = x.time :=
  ⟨filterByVelocityLogged_example,
   (velocity_divisors_positive K0 "car" (idleFilter "" 0 0 0)
      [frameOf (carAt 0 0 40) 0 0, frameOf (carAt 1 0 40) 0 500000000]
      (frameOf (carAt 2 0 40) 2 0) [] frames_increasing_example).1⟩

/-- In a state reached from a freshly constructed filter, the demotion of a
valid track re-enters through the seed branch: a valid track has
`initialized_ = true` and no confirmation timer running. -/
theorem reachable_demote_reseeds (K : Constants) (mode : String) (raw : Filter)
    (frames : List Frame) (ret : Box) (sel : Cluster) (input : List Cluster)
    (tsSec tsNsec : Int)
    (hva : (run (Filter.construct K mode raw) frames).valid_ = true)
    (hin : input ≠ [])
    (hnone : ∀ c ∈ input,
      gate (run (Filter.construct K mode raw) frames) (toTime tsSec tsNsec) c = false)
    (hr : 0 ≤ (run (Filter.construct K mode raw) frames).resetStartTime_)
    (hd : toTime tsSec tsNsec - (run (Filter.construct K mode raw) frames).resetStartTime_
      > (run (Filter.construct K mode raw) frames).resetTime_) :
    filterByVelocity ret sel (run (Filter.construct K mode raw) frames) input tsSec tsNsec []
      = ({ run (Filter.construct K mode raw) frames with
              valid_ := false, resetStartTime_ := -1, prevVel_ := ⟨0, 0⟩,
              prevTime_ := toTime tsSec tsNsec,
              prevBox_ := toBox ret (pickCurrent sel input hin),
              initStartTime_ := toTime tsSec tsNsec },
          [predict (run (Filter.construct K mode raw) frames) (toTime tsSec tsNsec)])
      ∧ (run (Filter.construct K mode raw) frames).initialized_ = true
      ∧ velocityDivisors { run (Filter.construct K mode raw) frames with
              valid_ := false, resetStartTime_ := -1 } input tsSec tsNsec = [] := by
  have h := run_construct_timers K mode raw frames
  refine ⟨?_, h.1 hva, ?_⟩
  · rw [filterByVelocity_demote_seed ret sel _ input tsSec tsNsec [] hin (h.1 hva) hva
      ((gateLoop_eq_nil_iff _ _ input).mpr hnone) (not_lt.mpr hr) hd (h.2.1 hva)]
    rfl
  · rw [velocityDivisors_not_valid _ input tsSec tsNsec (Or.inr rfl)]
    rw [if_neg hin, if_pos (h.2.1 hva)]

end TeamKR
